import Mathlib

/-! GopherSocial: request admission and authorization pipeline.

A shallow embedding of the fixed-window rate limiter
(`internal/ratelimiter/fixed-window.go`), the JWT authenticator
(`internal/auth/jwt.go`), the handlers of `cmd/api/middleware.go` (rate limiter, bearer token,
basic auth, post ownership, role precedence, `getUser`) with the responses of
`cmd/api/errors.go`, the post and token handlers of `cmd/api/posts.go` and `cmd/api/auth.go`,
the identity cache (`internal/store/cache/users.go`) and the feed query
(`internal/store/pagination.go`), followed by the properties proved about them.
-/

namespace ratelimiter

/-- Largest value of Go's `int` on a 64-bit platform. -/
def maxInt : Int := 2 ^ 63 - 1

/-- Two's-complement wrap-around of Go's 64-bit `int` arithmetic. -/
def wrapInt (x : Int) : Int := (x + 2 ^ 63) % 2 ^ 64 - 2 ^ 63

/-- The struct `FixedWindowRateLimiter`: the `clients` map (`map[string]int`, an absent key is
`none`), the `limit` and the `window` (a `time.Duration`, i.e. a number of nanoseconds). The
embedded `sync.RWMutex` is represented by the granularity of the steps below: every section of
code that runs under the lock is one step. -/
structure FixedWindowRateLimiter where
  clients : String → Option Int
  limit : Int
  window : Int

/-- `NewFixedWindowRateLimiter(limit, window)`: an empty table. -/
def NewFixedWindowRateLimiter (limit : Int) (window : Int) : FixedWindowRateLimiter :=
  { clients := fun _ => none, limit := limit, window := window }

/-- The two-valued map read `count, exists := rl.clients[ip]`, the section of `Allow` that runs
under `RLock`: an absent key reads as `(0, false)`. -/
def readCount (rl : FixedWindowRateLimiter) (ip : String) : Int × Bool :=
  match rl.clients ip with
  | some c => (c, true)
  | none => (0, false)

/-- What one call of `Allow` produces: the limiter afterwards, whether `go rl.resetCount(ip)` was
started, and the two return values. -/
structure AllowOutcome where
  rl : FixedWindowRateLimiter
  spawned : Bool
  admitted : Bool
  retryAfter : Int

/-- The rest of `Allow` after `RUnlock`, given the locals `count` and `exists` read before:
when `!exists || count < rl.limit` the section under `Lock` starts the expiry goroutine if
`!exists` and executes `rl.clients[ip]++` on the value the map holds at that moment, and the call
returns `(true, 0)`; otherwise the call returns `(false, rl.window)` and touches nothing. -/
def allowWrite (rl : FixedWindowRateLimiter) (ip : String) (count : Int) (exist : Bool) :
    AllowOutcome :=
  if !exist || decide (count < rl.limit) then
    { rl := { rl with
              clients := Function.update rl.clients ip (some (wrapInt ((readCount rl ip).1 + 1))) },
      spawned := !exist,
      admitted := true,
      retryAfter := 0 }
  else
    { rl := rl, spawned := false, admitted := false, retryAfter := rl.window }

/-- `Allow(ip)` executed without interference: the read section immediately followed by the
rest of the function. -/
def Allow (rl : FixedWindowRateLimiter) (ip : String) : AllowOutcome :=
  allowWrite rl ip (readCount rl ip).1 (readCount rl ip).2

/-- The section of `resetCount(ip)` that runs under `Lock` once `time.Sleep(rl.window)` has
returned: `delete(rl.clients, ip)`. -/
def resetCount (rl : FixedWindowRateLimiter) (ip : String) : FixedWindowRateLimiter :=
  { rl with clients := Function.update rl.clients ip none }

/-- A limiter together with the `resetCount` goroutines that have been started and are still
inside `time.Sleep`; each is identified by its `ip` argument. -/
structure LimiterState where
  rl : FixedWindowRateLimiter
  sleeping : List String

/-- The system right after `NewFixedWindowRateLimiter`: empty table, no goroutine. -/
def LimiterState.init (limit window : Int) : LimiterState :=
  { rl := NewFixedWindowRateLimiter limit window, sleeping := [] }

/-- The steps of the sequential model: a complete `Allow(ip)` call, or the wake-up of a sleeping
`resetCount(ip)` goroutine. -/
inductive Event where
  | allow (ip : String)
  | expire (ip : String)
deriving DecidableEq, Repr

/-- What a step shows to an observer: the return values of an `Allow` call, the expiry of a key,
or nothing when the scheduler picked an expiry for which no goroutine is sleeping. -/
inductive Obs where
  | allow (ip : String) (admitted : Bool) (retryAfter : Int)
  | expire (ip : String)
  | idle
deriving DecidableEq, Repr

/-- One step of the sequential model. -/
def step (s : LimiterState) : Event → LimiterState × Obs
  | .allow ip =>
    let r := Allow s.rl ip
    ({ rl := r.rl, sleeping := if r.spawned then ip :: s.sleeping else s.sleeping },
      .allow ip r.admitted r.retryAfter)
  | .expire ip =>
    if ip ∈ s.sleeping then
      ({ rl := resetCount s.rl ip, sleeping := s.sleeping.erase ip }, .expire ip)
    else (s, .idle)

/-- A sequence of steps, with the observations in chronological order. -/
def run (s : LimiterState) : List Event → LimiterState × List Obs
  | [] => (s, [])
  | e :: es =>
    let r := step s e
    let rs := run r.1 es
    (rs.1, r.2 :: rs.2)

/-- The number of admitted `Allow(ip)` calls in a log since the last expiry of `ip` (since the
start of the log when `ip` never expired): the admissions of the current window of `ip`. -/
def admittedInWindow (ip : String) : List Obs → Nat
  | [] => 0
  | o :: os =>
    if Obs.expire ip ∈ os then admittedInWindow ip os
    else if o = Obs.allow ip true 0 then admittedInWindow ip os + 1
    else admittedInWindow ip os

/-- The count stored for a key, `0` when the key is absent (what `rl.clients[ip]` evaluates
to). -/
def storedCount (s : LimiterState) (ip : String) : Int := (readCount s.rl ip).1

/-- The table invariant for a limiter configured with `limit`: the limit is the configured one
and every stored count lies between 1 and the limit. -/
def CountsBounded (limit : Int) (s : LimiterState) : Prop :=
  s.rl.limit = limit ∧ ∀ k c, s.rl.clients k = some c → 1 ≤ c ∧ c ≤ limit

/-- The expiry invariant of the sequential model: the keys of the table are exactly the
arguments of the sleeping `resetCount` goroutines, and no key has two of them. -/
def OneExpiryPerKey (s : LimiterState) : Prop :=
  s.sleeping.Nodup ∧ ∀ k, k ∈ s.sleeping ↔ s.rl.clients k ≠ none

/-! ### Concurrent callers

`Allow` takes the read lock, reads, releases it, and only then takes the write lock. Between the
two sections other goroutines may run, so a call in flight is a little state machine. -/

/-- A goroutine executing `Allow(ip)`: not yet started, holding the locals `count` and `exists`
after `RUnlock`, or returned with its two results. -/
inductive Call where
  | start (ip : String)
  | read (ip : String) (count : Int) (exist : Bool)
  | returned (ip : String) (admitted : Bool) (retryAfter : Int)
deriving DecidableEq, Repr

/-- The next atomic section of a call: the read under `RLock`, then the rest of `Allow` (the
branch and, when it is taken, the section under `Lock`). A returned call does nothing more. -/
def advance (s : LimiterState) : Call → LimiterState × Call
  | .start ip => (s, .read ip (readCount s.rl ip).1 (readCount s.rl ip).2)
  | .read ip count exist =>
    let r := allowWrite s.rl ip count exist
    ({ rl := r.rl, sleeping := if r.spawned then ip :: s.sleeping else s.sleeping },
      .returned ip r.admitted r.retryAfter)
  | .returned ip admitted retryAfter => (s, .returned ip admitted retryAfter)

/-- The limiter, its sleeping expiry goroutines, and the `Allow` calls in flight. -/
structure Concurrent where
  state : LimiterState
  calls : List Call

/-- A scheduling decision: let call number `i` run its next section, or wake the expiry
goroutine of `ip`. -/
inductive Sched where
  | call (i : Nat)
  | expire (ip : String)
deriving DecidableEq, Repr

/-- One scheduling step. -/
def cstep (c : Concurrent) : Sched → Concurrent
  | .call i =>
    match c.calls.get? i with
    | some g => { state := (advance c.state g).1, calls := c.calls.set i (advance c.state g).2 }
    | none => c
  | .expire ip => { c with state := (step c.state (.expire ip)).1 }

/-- A schedule, executed from left to right. -/
def crun (c : Concurrent) (sched : List Sched) : Concurrent := sched.foldl cstep c

/-- The number of calls for `ip` that have returned `admitted = true`. -/
def admittedCalls (ip : String) (c : Concurrent) : Nat :=
  (c.calls.filter fun g =>
    match g with
    | .returned k true _ => decide (k = ip)
    | _ => false).length

/-- Whether a step concerns a key: an `Allow` call for it or its expiry. -/
def concerns (key : String) (e : Event) : Bool :=
  decide (e = Event.allow key) || decide (e = Event.expire key)

/-- Two states that agree on everything `Allow(key)` and the expiry of `key` can see: the entry
of the key, the limit, the window, and the number of sleeping expiry goroutines of the key. -/
def SameView (key : String) (s t : LimiterState) : Prop :=
  s.rl.clients key = t.rl.clients key ∧ s.rl.limit = t.rl.limit ∧ s.rl.window = t.rl.window ∧
    s.sleeping.count key = t.sleeping.count key

end ratelimiter

/-! ## The token authenticator (`internal/auth/jwt.go`)

`jwt.go` is a thin wrapper around the package `github.com/golang-jwt/jwt/v5`, which is a
dependency and not part of the repository. The wrapper is embedded from its source; the pieces of
the package it calls are modelled below, each marked as such. -/

namespace auth

/-- Modelled from the spec: a claim value as the package `jwt` sees it after JSON decoding. A
JSON number is kept as an integer; for the registered date claims it is the instant in seconds
since the epoch. `strs` is a JSON array of strings, `other` any other JSON value. -/
inductive Value where
  | str (s : String)
  | num (n : Int)
  | strs (l : List String)
  | other
deriving DecidableEq, Repr

/-- Modelled from the spec: `jwt.MapClaims`, the dynamic claim map (`map[string]interface{}`),
as an association list read with `List.lookup`. -/
abbrev MapClaims := List (String × Value)

/-- Modelled from the spec: a token string `header.claims.signature` of the package `jwt`,
represented by its decoded segments (the `alg` entry of the header, the claim map, the signature
bytes); `malformed` stands for every string that does not decode into three such segments. -/
inductive TokenString where
  | malformed
  | compact (alg : String) (claims : MapClaims) (signature : List Nat)
deriving DecidableEq, Repr

/-- Modelled from the spec: the parsed `*jwt.Token` that `jwt.Parse` returns on success. -/
structure Token where
  alg : String
  claims : MapClaims
  signature : List Nat
  valid : Bool
deriving DecidableEq, Repr

/-- Modelled from the spec: the reasons for which the claim validator of the package rejects a
claim set (spec 4.1: `TokenExpired`, `TokenAudienceMismatch`, `TokenIssuerMismatch`, and a
required claim that is missing or has the wrong JSON type). -/
inductive ClaimError where
  | requiredClaimMissing (name : String)
  | invalidType (name : String)
  | expired
  | notValidYet
  | invalidAudience
  | invalidIssuer
deriving DecidableEq, Repr

/-- Modelled from the spec: the failure kinds of `jwt.Parse` (spec 4.1: `TokenInvalid` for a
malformed string, `SignatureInvalid`, and the claim failures; `unverifiable` is the failure of
the key function or of an unknown `alg`). -/
inductive JwtError where
  | malformed
  | unverifiable
  | signatureInvalid
  | invalidClaims (causes : List ClaimError)
deriving DecidableEq, Repr

/-- Modelled from the spec: the signing methods the package registers; an `alg` outside this list
has no signing method and the token cannot be verified. -/
def registeredMethods : List String :=
  ["HS256", "HS384", "HS512", "RS256", "RS384", "RS512", "ES256", "ES384", "ES512",
    "PS256", "PS384", "PS512", "EdDSA", "none"]

/-- Modelled from the spec: the methods of type `*jwt.SigningMethodHMAC`. -/
def hmacMethods : List String := ["HS256", "HS384", "HS512"]

/-- Modelled from the spec: the four parser options that `ValidateToken` passes to
`jwt.Parse`. -/
inductive ParserOption where
  | WithExpirationRequired
  | WithAudience (aud : String)
  | WithIssuer (iss : String)
  | WithValidMethods (methods : List String)
deriving DecidableEq, Repr

/-- Modelled from the spec: the settings of a `jwt.Parser`; an empty expected audience or issuer
and an absent method list mean that the corresponding check is not requested. -/
structure Parser where
  requireExp : Bool
  expectedAud : String
  expectedIss : String
  validMethods : Option (List String)
deriving DecidableEq, Repr

/-- Modelled from the spec: `jwt.NewParser(options...)`, applying the options from left to
right to a parser that requests nothing. -/
def NewParser (options : List ParserOption) : Parser :=
  options.foldl
    (fun p o =>
      match o with
      | .WithExpirationRequired => { p with requireExp := true }
      | .WithAudience aud => { p with expectedAud := aud }
      | .WithIssuer iss => { p with expectedIss := iss }
      | .WithValidMethods ms => { p with validMethods := some ms })
    { requireExp := false, expectedAud := "", expectedIss := "", validMethods := none }

/-- Modelled from the spec: the check of `exp` (spec 4.1 (b), "`exp` present and in the
future"): valid exactly when the verification time is before `exp`; an absent claim (or the
number 0, which the package reads as absent) is an error only when expiry is required. -/
def verifyExpiresAt (claims : MapClaims) (now : Int) (required : Bool) : List ClaimError :=
  match claims.lookup "exp" with
  | none => if required then [.requiredClaimMissing "exp"] else []
  | some (.num t) =>
    if t = 0 then (if required then [.requiredClaimMissing "exp"] else [])
    else if now < t then [] else [.expired]
  | some _ => [.invalidType "exp"]

/-- Modelled from the spec: the check of `nbf`, which the package always performs when the claim
is present: the verification time must not be before `nbf`. -/
def verifyNotBefore (claims : MapClaims) (now : Int) : List ClaimError :=
  match claims.lookup "nbf" with
  | none => []
  | some (.num t) => if t = 0 then [] else if now < t then [.notValidYet] else []
  | some _ => [.invalidType "nbf"]

/-- Modelled from the spec: the check of `aud` (spec 4.1 (c)): the claim is required, it is a
string or a list of strings, and one of them must equal the expected audience. -/
def verifyAudience (claims : MapClaims) (cmp : String) : List ClaimError :=
  match claims.lookup "aud" with
  | none => [.requiredClaimMissing "aud"]
  | some (.str a) =>
    if a = "" then [.requiredClaimMissing "aud"]
    else if a = cmp then [] else [.invalidAudience]
  | some (.strs l) =>
    if l.all (fun a => a = "") then [.requiredClaimMissing "aud"]
    else if cmp ∈ l then [] else [.invalidAudience]
  | some _ => [.invalidType "aud"]

/-- Modelled from the spec: the check of `iss` (spec 4.1 (d)): the claim is required, it is a
string, and it must equal the expected issuer. -/
def verifyIssuer (claims : MapClaims) (cmp : String) : List ClaimError :=
  match claims.lookup "iss" with
  | none => [.requiredClaimMissing "iss"]
  | some (.str i) =>
    if i = "" then [.requiredClaimMissing "iss"]
    else if i = cmp then [] else [.invalidIssuer]
  | some _ => [.invalidType "iss"]

/-- Modelled from the spec: the claim validator of the parser: expiry, not-before, then the
audience and issuer checks when an expected value was configured. All failures are collected. -/
def Parser.validate (p : Parser) (now : Int) (claims : MapClaims) : List ClaimError :=
  verifyExpiresAt claims now p.requireExp ++
    verifyNotBefore claims now ++
    (if p.expectedAud ≠ "" then verifyAudience claims p.expectedAud else []) ++
    (if p.expectedIss ≠ "" then verifyIssuer claims p.expectedIss else [])

/-- Modelled from the spec: `jwt.Parse` (spec 4.1 (a) to (d), in that order). `mac key alg
claims` is the HMAC of the signing input under `key`, `now` the verification time and `keyFunc`
the callback that yields the key for the token. The steps: decode the segments; find the signing
method of `alg`; check `alg` against the allowed methods; ask `keyFunc` for the key; verify the
signature (only HMAC methods verify with a byte-slice key); validate the claims. -/
def Parser.Parse (p : Parser) (mac : String → String → MapClaims → List Nat) (now : Int)
    (tokenString : TokenString) (keyFunc : String → Except String String) :
    Except JwtError Token :=
  match tokenString with
  | .malformed => .error .malformed
  | .compact alg claims signature =>
    if alg ∉ registeredMethods then .error .unverifiable
    else if (match p.validMethods with
        | some ms => decide (alg ∉ ms)
        | none => false) then .error .signatureInvalid
    else
      match keyFunc alg with
      | .error _ => .error .unverifiable
      | .ok key =>
        if alg ∉ hmacMethods ∨ signature ≠ mac key alg claims then .error .signatureInvalid
        else
          match p.validate now claims with
          | [] => .ok { alg := alg, claims := claims, signature := signature, valid := true }
          | e :: es => .error (.invalidClaims (e :: es))

/-- The struct `JWTAuthenticator`, fields in declaration order. -/
structure JWTAuthenticator where
  secret : String
  aud : String
  iss : String
deriving DecidableEq, Repr

/-- `NewJWTAuthenticator(secret, aud, iss)` returns `&JWTAuthenticator{secret, iss, aud}`: a
positional literal, so the field `aud` receives the argument `iss` and the field `iss` the
argument `aud`. -/
def NewJWTAuthenticator (secret aud iss : String) : JWTAuthenticator :=
  JWTAuthenticator.mk secret iss aud

/-- `GenerateToken(claims)`: a token with method HS256 over the given claims, signed with the
secret. Signing a claim map with a byte-slice key has no failure case. -/
def JWTAuthenticator.GenerateToken (mac : String → String → MapClaims → List Nat)
    (a : JWTAuthenticator) (claims : MapClaims) : Except String TokenString :=
  .ok (.compact "HS256" claims (mac a.secret "HS256" claims))

/-- The key function inside `ValidateToken`: an error unless the token's method is an HMAC
method, otherwise the secret. -/
def JWTAuthenticator.keyFunc (a : JWTAuthenticator) (alg : String) : Except String String :=
  if alg ∉ hmacMethods then .error ("unexpected signing method " ++ alg) else .ok a.secret

/-- `ValidateToken(token)`: `jwt.Parse` with the key function and the options
`WithExpirationRequired()`, `WithAudience(a.aud)`, `WithIssuer(a.aud)` and
`WithValidMethods([]string{"HS256"})`. The verification time `now` is the clock the package
reads. -/
def JWTAuthenticator.ValidateToken (mac : String → String → MapClaims → List Nat)
    (a : JWTAuthenticator) (now : Int) (token : TokenString) : Except JwtError Token :=
  (NewParser [.WithExpirationRequired, .WithAudience a.aud, .WithIssuer a.aud,
      .WithValidMethods ["HS256"]]).Parse mac now token a.keyFunc

/-- A stand-in for HMAC used to run the definitions on concrete tokens: the code points of the
key followed by the number of claims. (Every theorem below holds for an arbitrary `mac`.) -/
def toyMac (key : String) (_alg : String) (claims : MapClaims) : List Nat :=
  key.toList.map Char.toNat ++ [claims.length]

end auth

/-! ## The bearer-token middleware (`cmd/api/middleware.go`, `cmd/api/errors.go`)

A handler is embedded as the list of the calls it makes on its collaborators, in order: the
logger, the response writer, the authenticator, the cache, the durable store and the next
handler. -/

namespace strings

/-- The worker of `Split`: `acc` holds the characters of the current part in reverse. -/
def splitAux : List Char → List Char → List (List Char)
  | acc, [] => [acc.reverse]
  | acc, c :: cs =>
    if c = Char.ofNat 32 then acc.reverse :: splitAux [] cs else splitAux (c :: acc) cs

/-- Go's `strings.Split(s, " ")`: the parts of `s` between single spaces; `n` spaces give
`n + 1` parts, some of them possibly empty. -/
def Split (s : String) : List String := (splitAux [] s.toList).map String.mk

/-- The worker of `SplitN`: `acc` holds the characters before the first colon in reverse. -/
def splitNAux : List Char → List Char → List (List Char)
  | acc, [] => [acc.reverse]
  | acc, c :: cs => if c = Char.ofNat 58 then [acc.reverse, cs] else splitNAux (c :: acc) cs

/-- Go's `strings.SplitN(s, ":", 2)`: at most two parts, the text before the first colon and
everything after it; the whole string when it has no colon. -/
def SplitN (s : String) : List String := (splitNAux [] s.toList).map String.mk

/-- The worker of `SplitOn`: `acc` holds the characters of the current part in reverse. -/
def splitOnAux (sep : Char) : List Char → List Char → List (List Char)
  | acc, [] => [acc.reverse]
  | acc, c :: cs =>
    if c = sep then acc.reverse :: splitOnAux sep [] cs else splitOnAux sep (c :: acc) cs

/-- Go's `strings.Split(s, sep)` for a separator of one character. -/
def SplitOn (s : String) (sep : Char) : List String := (splitOnAux sep [] s.toList).map String.mk

end strings

namespace strconv

/-- The value of a string of decimal digits, `none` when a character is not a digit;
`acc` is the value read so far. -/
def digits : Nat → List Char → Option Nat
  | acc, [] => some acc
  | acc, c :: cs =>
    if 48 ≤ c.toNat ∧ c.toNat ≤ 57 then digits (acc * 10 + (c.toNat - 48)) cs else none

/-- Go's `strconv.ParseInt(s, 10, 64)`: an optional sign followed by at least one decimal
digit; the value must fit in 64 bits. -/
def ParseInt (s : String) : Except String Int :=
  match s.toList with
  | [] => .error "invalid syntax"
  | c :: cs =>
    let neg := decide (c = Char.ofNat 45)
    let ds := if c = Char.ofNat 45 ∨ c = Char.ofNat 43 then cs else c :: cs
    if ds = [] then .error "invalid syntax"
    else
      match digits 0 ds with
      | none => .error "invalid syntax"
      | some n =>
        let v : Int := if neg then -(n : Int) else (n : Int)
        if -(2 ^ 63) ≤ v ∧ v ≤ 2 ^ 63 - 1 then .ok v else .error "value out of range"

/-- Go's `strconv.Atoi(s)` on a 64-bit platform. -/
def Atoi (s : String) : Except String Int := ParseInt s

end strconv

namespace api

/-- Modelled from the spec: the type `store.Role` (its declaration is not under src/): id, name,
precedence level and description, the four columns `GetByID` scans into `user.Role`. -/
structure Role where
  ID : Int
  Name : String
  Level : Int
  Description : String
deriving DecidableEq, Repr

/-- The struct `store.User`; `Password` is the stored hash. -/
structure User where
  ID : Int
  Username : String
  Email : String
  Password : List Nat
  CreatedAt : String
  IsActive : Bool
  RoleID : Int
  Role : Role
deriving DecidableEq, Repr

/-- The part of `*http.Request` the middleware reads: method, URL path, and the first value of
the `Authorization` header when the header is present. -/
structure Request where
  Method : String
  Path : String
  Authorization : Option String
deriving DecidableEq, Repr

/-- `r.Header.Get("Authorization")`: the empty string when the header is absent. -/
def Request.headerGetAuthorization (r : Request) : String := r.Authorization.getD ""

/-- Modelled from the spec: the type `store.Post` (its declaration is not under src/), with
the fields the handlers under src/ read and write. -/
structure Post where
  ID : Int
  Title : String
  Content : String
  Tags : List String
  UserID : Int
deriving DecidableEq, Repr

/-- What a handler hands to `jsonResponse`: the token string of `createTokenHandler` or the post
of `updatePostHandler`. -/
inductive ResponseData where
  | token (tokenString : String)
  | post (post : Post)
deriving DecidableEq, Repr

/-- The calls a handler makes. `writeJSONError` is the helper of `json.go` (not under src/) that
writes the status and the error envelope; `next` is `next.ServeHTTP(w, r.WithContext(ctx))` with
the user stored under `userCtx` in the new context, `nextRequest` is `next.ServeHTTP(w, r)` with
the request as it was received; `rolesGetByName` is `store.Roles.GetByName` and `setHeader` is
`w.Header().Set`; `postsGetByID` and `postsUpdate` are `store.Posts.GetByID` and
`store.Posts.Update`, `storeGetByEmail` is `store.Users.GetByEmail`, `generateToken` is
`authenticator.GenerateToken`, and `jsonResponse` is the helper of `json.go` that writes a status
and a JSON envelope around the data; `nextPost` is `next.ServeHTTP(w, r.WithContext(ctx))` with
the post stored under `postCtx` in the new context. -/
inductive Effect where
  | log (level : String) (msg : String) (fields : List String)
  | writeJSONError (status : Nat) (message : String)
  | validateToken (token : String)
  | cacheGet (userID : Int)
  | storeGetByID (userID : Int)
  | cacheSet (user : User)
  | next (user : User)
  | nextRequest
  | rolesGetByName (name : String)
  | setHeader (name : String) (value : String)
  | postsGetByID (id : Int)
  | postsUpdate (post : Post)
  | storeGetByEmail (email : String)
  | generateToken (claims : auth.MapClaims)
  | jsonResponse (status : Nat) (data : ResponseData)
  | nextPost (post : Post)
deriving DecidableEq, Repr

/-- Modelled from the spec: the status of the response, i.e. the status passed to the first
`writeJSONError` (the helper writes the header once; `none` when the handler wrote nothing). -/
def responseStatus : List Effect → Option Nat
  | [] => none
  | .writeJSONError status _ :: _ => some status
  | _ :: es => responseStatus es

/-- An error of the durable store: the sentinel `store.ErrNotFound`, which the handlers test
for, or any other error with its message. -/
inductive StoreError where
  | ErrNotFound
  | other (msg : String)
deriving DecidableEq, Repr

/-- The message of a store error (`err.Error()`); "resource not found" stands for the text of
the sentinel, whose declaration is not under src/. -/
def StoreError.Error : StoreError → String
  | .ErrNotFound => "resource not found"
  | .other msg => msg

/-- The struct `UpdatePostPayload`: two nullable strings. -/
structure UpdatePostPayload where
  Title : Option String
  Content : Option String
deriving DecidableEq, Repr

/-- The struct `CreateUserTokenPayload`. -/
structure CreateUserTokenPayload where
  Email : String
  Password : String
deriving DecidableEq, Repr

/-- The collaborators of `application` that the middleware uses: the flag
`config.redisCfg.enabled`, `authenticator.ValidateToken`, `store.Users.GetByID`,
`cacheStorage.Users.Get` (where `ok none` is the result `(nil, nil)`),
`cacheStorage.Users.Set`, `store.Roles.GetByName`, and the configured credentials
`config.auth.basic.user` and `config.auth.basic.pass`. A Go `error` is represented by its
message. For the other handlers: the flag `config.rateLimiter.Enabled`,
`store.Posts.GetByID`, `store.Posts.Update` (which returns only an error), `Validate.Struct`
on an update payload, `store.Users.GetByEmail`, `authenticator.GenerateToken`, the error that
`jsonResponse` returns (`none` is `nil`), and `config.auth.token.iss` and
`config.auth.token.exp` (in seconds). -/
structure application where
  redisEnabled : Bool
  ValidateToken : String → Except String auth.Token
  GetByID : Int → Except String User
  cacheGet : Int → Except String (Option User)
  cacheSet : User → Except String Unit
  GetByName : String → Except String Role
  basicUser : String
  basicPass : String
  rateLimiterEnabled : Bool
  PostsGetByID : Int → Except StoreError Post
  PostsUpdate : Post → Option String
  ValidateStruct : UpdatePostPayload → Option String
  GetByEmail : String → Except StoreError User
  GenerateToken : auth.MapClaims → Except String String
  jsonResponse : Nat → ResponseData → Option String
  tokenIss : String
  tokenExp : Int

/-- `http.StatusUnauthorized`. -/
def StatusUnauthorized : Nat := 401

/-- `unauthorizedErrorResponse(w, r, err)`: a warning in the log, then
`writeJSONError(w, http.StatusUnauthorized, "unauthorized")`. -/
def application.unauthorizedErrorResponse (_app : application) (r : Request) (err : String) :
    List Effect :=
  [.log "warn" "unauthorized error" ["method", r.Method, "path", r.Path, "error", err],
    .writeJSONError StatusUnauthorized "unauthorized"]

/-- `getUser(ctx, userID)`: straight from the durable store when the cache is disabled;
otherwise from the cache, and on a miss from the store followed by a cache `Set`. Returns the
calls made and the result. -/
def application.getUser (app : application) (userID : Int) : List Effect × Except String User :=
  if !app.redisEnabled then
    ([.storeGetByID userID], app.GetByID userID)
  else
    match app.cacheGet userID with
    | .error e => ([.log "info" "cache hit" [], .cacheGet userID], .error e)
    | .ok (some user) => ([.log "info" "cache hit" [], .cacheGet userID], .ok user)
    | .ok none =>
      match app.GetByID userID with
      | .error e =>
        ([.log "info" "cache hit" [], .cacheGet userID, .log "info" "fetching from DB" [],
          .storeGetByID userID], .error e)
      | .ok user =>
        match app.cacheSet user with
        | .error e =>
          ([.log "info" "cache hit" [], .cacheGet userID, .log "info" "fetching from DB" [],
            .storeGetByID userID, .cacheSet user], .error e)
        | .ok _ =>
          ([.log "info" "cache hit" [], .cacheGet userID, .log "info" "fetching from DB" [],
            .storeGetByID userID, .cacheSet user], .ok user)

/-- `strconv.ParseInt(fmt.Sprintf("%.f", claims["sub"]), 10, 64)`. `Sprintf` is the formatting
of the standard library with the verb `%.f`, applied to the value stored under the claim (`none`
when the claim is absent); the value is a `float64` for a JSON number, so what is printed, and
then parsed, is the decimal form of that float rounded to an integer. -/
def parseSub (Sprintf : Option auth.Value → String) (sub : Option auth.Value) :
    Except String Int :=
  strconv.ParseInt (Sprintf sub)

/-- The handler that `AuthTokenMiddleware(next)` returns, applied to a request; `Sprintf` is
the formatting function that `parseSub` uses. -/
def application.AuthTokenMiddleware (app : application) (Sprintf : Option auth.Value → String)
    (r : Request) : List Effect :=
  let authHeader := r.headerGetAuthorization
  if authHeader = "" then
    app.unauthorizedErrorResponse r "authorization header is missing"
  else
    let parts := strings.Split authHeader
    if parts.length ≠ 2 ∨ parts.head? ≠ some "Bearer" then
      app.unauthorizedErrorResponse r "authorization header is malformed"
    else
      let token := parts.getD 1 ""
      .validateToken token ::
        match app.ValidateToken token with
        | .error err => app.unauthorizedErrorResponse r err
        | .ok jwtToken =>
          match parseSub Sprintf (jwtToken.claims.lookup "sub") with
          | .error err => app.unauthorizedErrorResponse r err
          | .ok userID =>
            (app.getUser userID).1 ++
              match (app.getUser userID).2 with
              | .error err => app.unauthorizedErrorResponse r err
              | .ok user => [.next user]

/-- The number of times the handler invoked the next handler, in any of its forms. -/
def nextCalls (es : List Effect) : Nat :=
  (es.filter fun e =>
    match e with
    | .next _ => true
    | .nextRequest => true
    | .nextPost _ => true
    | _ => false).length

/-- `http.StatusForbidden`. -/
def StatusForbidden : Nat := 403

/-- `http.StatusInternalServerError`. -/
def StatusInternalServerError : Nat := 500

/-- `internalServerError(w, r, err)`: the error goes to the log, the caller gets
`writeJSONError(w, http.StatusInternalServerError, "the server encountered a problem")`. -/
def application.internalServerError (_app : application) (r : Request) (err : String) :
    List Effect :=
  [.log "error" "internal error" ["method", r.Method, "path", r.Path, "error", err],
    .writeJSONError StatusInternalServerError "the server encountered a problem"]

/-- `forbiddenResponse(w, r)`: a warning in the log, then
`writeJSONError(w, http.StatusForbidden, "forbidden")`. -/
def application.forbiddenResponse (_app : application) (r : Request) : List Effect :=
  [.log "warn" "forbidden" ["method", r.Method, "path", r.Path, "error"],
    .writeJSONError StatusForbidden "forbidden"]

/-- The value of the `WWW-Authenticate` challenge: `Basic realm="restricted", charset="UTF-8"`
(code point 34 is the double quote). -/
def basicChallenge : String :=
  "Basic realm=" ++ String.singleton (Char.ofNat 34) ++ "restricted" ++
    String.singleton (Char.ofNat 34) ++ ", charset=" ++ String.singleton (Char.ofNat 34) ++
    "UTF-8" ++ String.singleton (Char.ofNat 34)

/-- `unauthorizedBasicErrorResponse(w, r, err)`: a warning in the log, the `WWW-Authenticate`
header, then `writeJSONError(w, http.StatusUnauthorized, "unauthorized")`. -/
def application.unauthorizedBasicErrorResponse (_app : application) (r : Request)
    (err : String) : List Effect :=
  [.log "warn" "unauthorized basic error" ["method", r.Method, "path", r.Path, "error", err],
    .setHeader "WWW-Authenticate" basicChallenge,
    .writeJSONError StatusUnauthorized "unauthorized"]

/-- `checkRolePrecedence(ctx, user, roleName)`: the calls made and the two return values, the
boolean and the error (`none` is `nil`). -/
def application.checkRolePrecedence (app : application) (user : User) (roleName : String) :
    List Effect × Bool × Option String :=
  match app.GetByName roleName with
  | .error err => ([.rolesGetByName roleName], false, some err)
  | .ok role => ([.rolesGetByName roleName], decide (user.Role.Level ≥ role.Level), none)

/-- The handler that `checkPostOwnership(requiredRole, next)` returns, applied to a request
whose context holds `user` (what `getUserFromContext(r)` returns) and `post` (what
`getPostFromCtx(r)` returns). -/
def application.checkPostOwnership (app : application) (requiredRole : String) (r : Request)
    (user : User) (post : Post) : List Effect :=
  if post.UserID = user.ID then
    [.nextRequest]
  else
    (app.checkRolePrecedence user requiredRole).1 ++
      match (app.checkRolePrecedence user requiredRole).2.2 with
      | some err => app.internalServerError r err
      | none =>
        if !(app.checkRolePrecedence user requiredRole).2.1 then app.forbiddenResponse r
        else [.nextRequest]

/-- Modelled from the spec: `base64.StdEncoding` of the Go standard library, as the pair of its
two functions `EncodeToString` and `DecodeString` (byte strings are represented as strings). -/
structure Base64 where
  EncodeToString : String → String
  DecodeString : String → Except String String

/-- The handler that `BasicAuthMiddleware()(next)` returns, applied to a request. -/
def application.BasicAuthMiddleware (app : application) (StdEncoding : Base64) (r : Request) :
    List Effect :=
  let authHeader := r.headerGetAuthorization
  if authHeader = "" then
    app.unauthorizedBasicErrorResponse r "authorization header is missing"
  else
    let parts := strings.Split authHeader
    if parts.length ≠ 2 ∨ parts.head? ≠ some "Basic" then
      app.unauthorizedBasicErrorResponse r "authorization header is malformed"
    else
      match StdEncoding.DecodeString (parts.getD 1 "") with
      | .error err => app.unauthorizedBasicErrorResponse r err
      | .ok decoded =>
        let username := app.basicUser
        let pass := app.basicPass
        let creds := strings.SplitN decoded
        if creds.length ≠ 2 ∨ creds.head? ≠ some username ∨ creds.getD 1 "" ≠ pass then
          app.unauthorizedBasicErrorResponse r "invalid credentials"
        else [.nextRequest]

/-- A fragment of the standard base64 encoding for running the definitions: the three
credential strings "admin:admin", "admin:secret" and "a:b:c" and their encodings. -/
def testBase64 : Base64 :=
  { EncodeToString := fun s =>
      if s = "admin:admin" then "YWRtaW46YWRtaW4="
      else if s = "admin:secret" then "YWRtaW46c2VjcmV0"
      else if s = "a:b:c" then "YTpiOmM="
      else "",
    DecodeString := fun b =>
      if b = "YWRtaW46YWRtaW4=" then .ok "admin:admin"
      else if b = "YWRtaW46c2VjcmV0" then .ok "admin:secret"
      else if b = "YTpiOmM=" then .ok "a:b:c"
      else .error "illegal base64 data" }

/-- `http.StatusBadRequest`. -/
def StatusBadRequest : Nat := 400

/-- `http.StatusTooManyRequests`. -/
def StatusTooManyRequests : Nat := 429

/-- `http.StatusOK`. -/
def StatusOK : Nat := 200

/-- `http.StatusCreated`. -/
def StatusCreated : Nat := 201

/-- `badRequestError(w, r, err)`: a warning in the log, then
`writeJSONError(w, http.StatusBadRequest, err.Error())`. -/
def application.badRequestError (_app : application) (r : Request) (err : String) :
    List Effect :=
  [.log "warn" "bad request" ["method", r.Method, "path", r.Path, "error", err],
    .writeJSONError StatusBadRequest err]

/-- `notFoundError(w, r, err)`: a warning in the log, then
`writeJSONError(w, http.StatusBadRequest, "not found")`. -/
def application.notFoundError (_app : application) (r : Request) (err : String) : List Effect :=
  [.log "warn" "not found error" ["method", r.Method, "path", r.Path, "error", err],
    .writeJSONError StatusBadRequest "not found"]

/-- `rateLimitExceededResponse(w, r, retryAfter)`: a warning in the log, the `Retry-After`
header, then `writeJSONError(w, http.StatusTooManyRequests, ...)`. -/
def application.rateLimitExceededResponse (_app : application) (r : Request)
    (retryAfter : String) : List Effect :=
  [.log "warn" "rate limit exceeded" ["method", r.Method, "path", r.Path],
    .setHeader "Retry-After" retryAfter,
    .writeJSONError StatusTooManyRequests ("rate limit exceeded, retry after: " ++ retryAfter)]

/-- The handler that `RateLimiterMiddleware(next)` returns, applied to a request arriving from
`remoteAddr` (the field `r.RemoteAddr`) while the limiter is in the state `s`: the limiter
afterwards and the calls made. `durationString` is `time.Duration.String` of the standard
library. -/
def application.RateLimiterMiddleware (app : application) (durationString : Int → String)
    (s : ratelimiter.LimiterState) (remoteAddr : String) (r : Request) :
    ratelimiter.LimiterState × List Effect :=
  if app.rateLimiterEnabled then
    if !(ratelimiter.Allow s.rl remoteAddr).admitted then
      ((ratelimiter.step s (.allow remoteAddr)).1,
        app.rateLimitExceededResponse r
          (durationString (ratelimiter.Allow s.rl remoteAddr).retryAfter))
    else ((ratelimiter.step s (.allow remoteAddr)).1, [.nextRequest])
  else (s, [.nextRequest])

/-- A handler wrapped by a middleware: every `next.ServeHTTP(w, r)` of the outer handler is
replaced by the calls of the inner handler on that request. -/
def chain : List Effect → List Effect → List Effect
  | [], _ => []
  | .nextRequest :: es, inner => inner ++ chain es inner
  | e :: es, inner => e :: chain es inner

/-- The handlers that `mount` puts in front of the routes under `/posts`, `/users/{userID}` and
`/users/feed`: `RateLimiterMiddleware` (installed with `r.Use` on the root router) around
`AuthTokenMiddleware` (installed with `r.Use` in these groups). -/
def application.protectedRoute (app : application) (durationString : Int → String)
    (Sprintf : Option auth.Value → String) (s : ratelimiter.LimiterState) (remoteAddr : String)
    (r : Request) : ratelimiter.LimiterState × List Effect :=
  ((app.RateLimiterMiddleware durationString s remoteAddr r).1,
    chain (app.RateLimiterMiddleware durationString s remoteAddr r).2
      (app.AuthTokenMiddleware Sprintf r))

/-- The handler that `postsContextMiddleware(next)` returns, applied to a request whose URL
parameter `postID` is `idParam`. On success the next handler runs with the post stored under
`postCtx` in the request context. -/
def application.postsContextMiddleware (app : application) (r : Request) (idParam : String) :
    List Effect :=
  match strconv.ParseInt idParam with
  | .error err => app.internalServerError r err
  | .ok id =>
    .postsGetByID id ::
      match app.PostsGetByID id with
      | .error .ErrNotFound => app.notFoundError r StoreError.ErrNotFound.Error
      | .error (.other msg) => app.internalServerError r msg
      | .ok post => [.nextPost post]

/-- `updatePostHandler`, applied to a request whose context holds `post` and whose body
`readJSON` turns into `body.1`, returning the error `body.2` (`none` is `nil`). -/
def application.updatePostHandler (app : application) (r : Request) (post : Post)
    (body : UpdatePostPayload × Option String) : List Effect :=
  (match body.2 with
    | some err => app.badRequestError r err
    | none => []) ++
    match app.ValidateStruct body.1 with
    | some err => app.badRequestError r err
    | none =>
      let post1 := match body.1.Content with
        | some content => { post with Content := content }
        | none => post
      let post2 := match body.1.Title with
        | some title => { post1 with Title := title }
        | none => post1
      .postsUpdate post2 ::
        match app.PostsUpdate post2 with
        | some err => app.internalServerError r err
        | none =>
          .jsonResponse StatusOK (.post post2) ::
            match app.jsonResponse StatusOK (.post post2) with
            | some err => app.internalServerError r err
            | none => []

/-- The claims `createTokenHandler` builds for a user at the instant `now` (seconds since the
epoch, what `time.Now().Unix()` returns). -/
def application.tokenClaims (app : application) (now : Int) (user : User) : auth.MapClaims :=
  [("sub", .num user.ID), ("exp", .num (now + app.tokenExp)), ("iat", .num now),
    ("nbf", .num now), ("iss", .str app.tokenIss), ("aud", .str app.tokenIss)]

/-- `createTokenHandler` at the instant `now`, applied to a request whose body `readJSON` turns
into `body` (an error when the body cannot be read). -/
def application.createTokenHandler (app : application) (now : Int) (r : Request)
    (body : Except String CreateUserTokenPayload) : List Effect :=
  match body with
  | .error err => app.badRequestError r err
  | .ok payload =>
    .storeGetByEmail payload.Email ::
      match app.GetByEmail payload.Email with
      | .error .ErrNotFound => app.unauthorizedErrorResponse r StoreError.ErrNotFound.Error
      | .error (.other msg) => app.internalServerError r msg
      | .ok user =>
        .generateToken (app.tokenClaims now user) ::
          match app.GenerateToken (app.tokenClaims now user) with
          | .error err => app.internalServerError r err
          | .ok token =>
            .jsonResponse StatusCreated (.token token) ::
              match app.jsonResponse StatusCreated (.token token) with
              | some err => app.internalServerError r err
              | none => []

/-- What reaches the caller: the calls on the response writer, i.e. everything but the log
entries and the calls on the other collaborators. -/
def callerVisible (es : List Effect) : List Effect :=
  es.filter fun e =>
    match e with
    | .writeJSONError _ _ => true
    | .setHeader _ _ => true
    | .jsonResponse _ _ => true
    | _ => false

/-- The number of binary digits of `n`; `fuel` bounds the recursion and `n` itself is enough. -/
def bitLen : Nat → Nat → Nat
  | 0, _ => 0
  | fuel + 1, n => if n = 0 then 0 else bitLen fuel (n / 2) + 1

/-- The `float64` nearest to the natural number `n`, as `encoding/json` stores a JSON number in a
`map[string]interface{}`: the 53 leading binary digits are kept and the rest is rounded to
nearest, a tie going to the even mantissa. -/
def float64Nearest (n : Nat) : Nat :=
  let sh := bitLen n n - 53
  let q := n / 2 ^ sh
  let r := n % 2 ^ sh
  if 2 * r > 2 ^ sh ∨ (2 * r = 2 ^ sh ∧ q % 2 = 1) then (q + 1) * 2 ^ sh else q * 2 ^ sh

/-- The decimal digits of `n`, most significant first, in front of `acc`. -/
def decimalAux : Nat → Nat → List Char → List Char
  | 0, _, acc => acc
  | fuel + 1, n, acc =>
    if n < 10 then Char.ofNat (48 + n) :: acc
    else decimalAux fuel (n / 10) (Char.ofNat (48 + n % 10) :: acc)

/-- The decimal form of a natural number. -/
def decimal (n : Nat) : String :=
  String.mk (decimalAux (n + 1) n [])

/-- A model of `fmt.Sprintf("%.f", v)` for running the definitions. An integer JSON number is
held as the nearest `float64` and printed in decimal without a fraction: 1 prints as "1",
9007199254740993 (2^53 + 1) as "9007199254740992" and 9223372036854775807 (2^63 - 1) as
"9223372036854775808"; a number beyond the range of `float64` prints as an infinity. A value that
is not a number prints as a `%!f(...)` marker and an absent claim as `%!f(<nil>)`. -/
def testSprintf : Option auth.Value → String
  | some (.num n) =>
    if 1024 < bitLen (float64Nearest n.natAbs) (float64Nearest n.natAbs) then
      (if n < 0 then "-Inf" else "+Inf")
    else if n < 0 then "-" ++ decimal (float64Nearest n.natAbs)
    else decimal (float64Nearest n.natAbs)
  | some (.str v) => "%!f(string=" ++ v ++ ")"
  | some _ => "%!f(...)"
  | none => "%!f(<nil>)"

/-- A fragment of `time.Duration.String` for running the definitions: five seconds print as
"5s", everything else as a number of nanoseconds. -/
def testDurationString (d : Int) : String :=
  if d = 5000000000 then "5s" else toString d ++ "ns"

/-- An application for running the definitions: cache disabled, an authenticator that accepts
only the token "good" (subject 1), a store holding the user 1 and the roles "user" (level 1) and
"admin" (level 3), and the basic-auth credentials of `main`; the rate limiter enabled, a store
holding the post 1, and the issuer and token lifetime (3 days) of `main`. -/
def testApplication : application :=
  { redisEnabled := false,
    ValidateToken := fun t =>
      if t = "good" then .ok { alg := "HS256", claims := [("sub", .num 1)], signature := [],
                               valid := true }
      else .error "token is malformed",
    GetByID := fun id =>
      if id = 1 then .ok { ID := 1, Username := "u", Email := "u@example.com", Password := [],
                           CreatedAt := "", IsActive := true, RoleID := 1,
                           Role := { ID := 1, Name := "user", Level := 1, Description := "" } }
      else .error "not found",
    cacheGet := fun _ => .ok none,
    cacheSet := fun _ => .ok (),
    GetByName := fun name =>
      if name = "user" then .ok { ID := 1, Name := "user", Level := 1, Description := "" }
      else if name = "admin" then .ok { ID := 3, Name := "admin", Level := 3, Description := "" }
      else .error "sql: no rows in result set",
    basicUser := "admin",
    basicPass := "admin",
    rateLimiterEnabled := true,
    PostsGetByID := fun id =>
      if id = 1 then .ok { ID := 1, Title := "t", Content := "c", Tags := [], UserID := 1 }
      else .error .ErrNotFound,
    PostsUpdate := fun _ => none,
    ValidateStruct := fun _ => none,
    GetByEmail := fun email =>
      if email = "u@example.com" then
        .ok { ID := 1, Username := "u", Email := "u@example.com", Password := [36, 50, 97],
              CreatedAt := "", IsActive := true, RoleID := 1,
              Role := { ID := 1, Name := "user", Level := 1, Description := "" } }
      else .error .ErrNotFound,
    GenerateToken := fun _ => .ok "good",
    jsonResponse := fun _ _ => none,
    tokenIss := "gophersocial",
    tokenExp := 259200 }


end api

/-! ## The identity cache (`internal/store/cache/users.go`)

The redis server and `encoding/json` are outside the repository. A stored string is represented
by what `json.Unmarshal` makes of it, the server by a table of such strings with their expiry
instants. -/

namespace cache

open api

/-- What `json.Marshal(user)` writes and `json.Unmarshal` reads back: every field of
`store.User` except `Password`, which carries the tag `json:"-"`. -/
def jsonView (u : User) : User := { u with Password := [] }

/-- Modelled from the spec: a string stored in redis, represented by its content as
`encoding/json` sees it: the empty string, the JSON text of a user document, or a text that
`json.Unmarshal` rejects. -/
inductive Text where
  | empty
  | user (doc : User)
  | invalid
deriving DecidableEq, Repr

/-- Modelled from the spec: `json.Marshal(user)` for a `store.User`; it has no failure case for
this type. -/
def Marshal (u : User) : Text := .user (jsonView u)

/-- Modelled from the spec: `json.Unmarshal(data, &user)` into a zero `store.User`: the fields
present in the document are set, `Password` keeps its zero value. -/
def Unmarshal : Text → Except String User
  | .user doc => .ok (jsonView doc)
  | .empty => .error "unexpected end of JSON input"
  | .invalid => .error "invalid character"

/-- The zero value of `store.User` (`var user store.User`). -/
def zeroUser : User :=
  { ID := 0, Username := "", Email := "", Password := [], CreatedAt := "", IsActive := false,
    RoleID := 0, Role := { ID := 0, Name := "", Level := 0, Description := "" } }

/-- Modelled from the spec: the errors of a redis command: the sentinel `redis.Nil` (key absent)
or any other failure, with its message. -/
inductive RedisError where
  | Nil
  | other (msg : String)
deriving DecidableEq, Repr

/-- Modelled from the spec: the redis server as the client sees it: the stored strings with the
instant at which each expires, and `failure`, which is `some msg` while the server cannot be
reached (every command then fails with `msg`). -/
structure Redis where
  entries : String → Option (Text × Int)
  failure : Option String

/-- Modelled from the spec: `rdb.Get(ctx, key).Result()` at the instant `now`: `redis.Nil` for
a key that is absent or expired. -/
def Redis.Get (rdb : Redis) (now : Int) (key : String) : Except RedisError Text :=
  match rdb.failure with
  | some msg => .error (.other msg)
  | none =>
    match rdb.entries key with
    | some (v, expiresAt) => if now < expiresAt then .ok v else .error .Nil
    | none => .error .Nil

/-- Modelled from the spec: `rdb.SetEX(ctx, key, value, ttl).Err()` at the instant `now`: the
server afterwards and the error. The value replaces any earlier one and expires `ttl` later. -/
def Redis.SetEX (rdb : Redis) (now : Int) (key : String) (value : Text) (ttl : Int) :
    Redis × Option RedisError :=
  match rdb.failure with
  | some msg => (rdb, some (.other msg))
  | none => ({ rdb with entries := Function.update rdb.entries key (some (value, now + ttl)) }, none)

/-- `const UserExpTime = time.Minute`, in nanoseconds. -/
def UserExpTime : Int := 60 * 1000000000

/-- `fmt.Sprintf("user-%v", userID)`. -/
def cacheKey (userID : Int) : String := "user-" ++ toString userID

/-- `UserStore.Get(ctx, userID)` at the instant `now`; `ok none` is the result `(nil, nil)`. -/
def UserStore.Get (rdb : Redis) (now : Int) (userID : Int) : Except String (Option User) :=
  match rdb.Get now (cacheKey userID) with
  | .error .Nil => .ok none
  | .error (.other err) => .error err
  | .ok data =>
    if data ≠ .empty then
      match Unmarshal data with
      | .error err => .error err
      | .ok user => .ok (some user)
    else .ok (some zeroUser)

/-- `UserStore.Set(ctx, user)` at the instant `now`: the server afterwards and the result. -/
def UserStore.Set (rdb : Redis) (now : Int) (user : User) : Redis × Except String Unit :=
  match (rdb.SetEX now (cacheKey user.ID) (Marshal user) UserExpTime).2 with
  | some .Nil => ((rdb.SetEX now (cacheKey user.ID) (Marshal user) UserExpTime).1, .error "redis: nil")
  | some (.other err) => ((rdb.SetEX now (cacheKey user.ID) (Marshal user) UserExpTime).1, .error err)
  | none => ((rdb.SetEX now (cacheKey user.ID) (Marshal user) UserExpTime).1, .ok ())

/-- An empty, reachable redis server. -/
def Redis.empty : Redis := { entries := fun _ => none, failure := none }

/-- A user with a password hash, for running the definitions. -/
def testUser : User :=
  { ID := 42, Username := "gopher", Email := "gopher@example.com", Password := [36, 50, 97],
    CreatedAt := "2024-01-01", IsActive := true, RoleID := 1,
    Role := { ID := 1, Name := "user", Level := 1, Description := "" } }

end cache

/-! ## The feed query (`internal/store/pagination.go`) -/

namespace store

/-- The struct `PaginatedFeedQuery`; `SortOrder` is the field `Sort`. -/
structure PaginatedFeedQuery where
  Limit : Int
  Offset : Int
  SortOrder : String
  Tags : List String
  Search : String
  Since : String
  Until : String
deriving DecidableEq, Repr

/-- Modelled from the spec: the two functions of the package `time` that `parseTime` calls,
`time.Parse(time.DateTime, s)` and `t.Format(time.DateTime)`, over instants in seconds. -/
structure DateTime where
  Parse : String → Except String Int
  Format : Int → String

/-- `parseTime(s)`: the normalised timestamp, or the empty string when `s` does not parse. -/
def parseTime (dt : DateTime) (s : String) : String :=
  match dt.Parse s with
  | .error _ => ""
  | .ok t => dt.Format t

/-- `r.URL.Query().Get(key)`: the first value of the key, the empty string when there is
none. -/
def queryGet (qs : List (String × String)) (key : String) : String := (qs.lookup key).getD ""

/-- `fq.Parse(r)` for a request with the query `qs`: the two return values, the query and the
error (`none` is `nil`). The statements follow the source one by one; the last block is the one
that reads `until`. -/
def PaginatedFeedQuery.Parse (dt : DateTime) (fq : PaginatedFeedQuery)
    (qs : List (String × String)) : PaginatedFeedQuery × Option String :=
  let limit := queryGet qs "limit"
  match (if limit ≠ "" then strconv.Atoi limit else .ok fq.Limit) with
  | .error err => (fq, some err)
  | .ok l =>
    let fq1 := { fq with Limit := l }
    let offset := queryGet qs "offset"
    match (if offset ≠ "" then strconv.Atoi offset else .ok fq1.Offset) with
    | .error err => (fq1, some err)
    | .ok o =>
      let fq2 := { fq1 with Offset := o }
      let sort := queryGet qs "sort"
      let fq3 := if sort ≠ "" then { fq2 with SortOrder := sort } else fq2
      let tags := queryGet qs "tags"
      let fq4 := if tags ≠ "" then { fq3 with Tags := strings.SplitOn tags (Char.ofNat 44) }
        else fq3
      let search := queryGet qs "search"
      let fq5 := if search ≠ "" then { fq4 with Search := search } else fq4
      let since := queryGet qs "since"
      let fq6 := if since ≠ "" then { fq5 with Since := parseTime dt since } else fq5
      let untilValue := queryGet qs "until"
      let fq7 := if since ≠ "" then { fq6 with Since := parseTime dt untilValue } else fq6
      (fq7, none)

/-- The query `getUserFeedHandler` starts from: limit 20, offset 0, sort "desc". -/
def defaultFeedQuery : PaginatedFeedQuery :=
  { Limit := 20, Offset := 0, SortOrder := "desc", Tags := [], Search := "", Since := "", Until := "" }

/-- A fragment of the package `time` for running the definitions: the two timestamps
"2024-01-01 00:00:00" and "2024-12-31 23:59:59", which are valid and already normalised. -/
def testDateTime : DateTime :=
  { Parse := fun s =>
      if s = "2024-01-01 00:00:00" then .ok 1704067200
      else if s = "2024-12-31 23:59:59" then .ok 1735689599
      else .error "parsing time: cannot parse",
    Format := fun t =>
      if t = 1704067200 then "2024-01-01 00:00:00"
      else if t = 1735689599 then "2024-12-31 23:59:59"
      else "" }

end store

/-! ## Properties of the rate limiter -/

namespace ratelimiter

theorem wrapInt_eq (x : Int) (h1 : -(2 ^ 63) ≤ x) (h2 : x ≤ maxInt) : wrapInt x = x := by
  unfold wrapInt
  unfold maxInt at h2
  omega

theorem wrapInt_one : wrapInt 1 = 1 := by decide

theorem Allow_absent (rl : FixedWindowRateLimiter) (ip : String) (h : rl.clients ip = none) :
    Allow rl ip =
      { rl := { rl with clients := Function.update rl.clients ip (some 1) },
        spawned := true, admitted := true, retryAfter := 0 } := by
  simp [Allow, allowWrite, readCount, h, wrapInt_one]

theorem Allow_below (rl : FixedWindowRateLimiter) (ip : String) (c : Int)
    (h : rl.clients ip = some c) (hc : c < rl.limit) (h0 : 0 ≤ c) (hmax : rl.limit ≤ maxInt) :
    Allow rl ip =
      { rl := { rl with clients := Function.update rl.clients ip (some (c + 1)) },
        spawned := false, admitted := true, retryAfter := 0 } := by
  have hw : wrapInt (c + 1) = c + 1 := wrapInt_eq _ (by omega) (by omega)
  simp [Allow, allowWrite, readCount, h, hc, hw]

theorem Allow_full (rl : FixedWindowRateLimiter) (ip : String) (c : Int)
    (h : rl.clients ip = some c) (hc : rl.limit ≤ c) :
    Allow rl ip = { rl := rl, spawned := false, admitted := false, retryAfter := rl.window } := by
  have : ¬ c < rl.limit := by omega
  simp [Allow, allowWrite, readCount, h, this]

theorem run_append (s : LimiterState) (a b : List Event) :
    run s (a ++ b) = ((run (run s a).1 b).1, (run s a).2 ++ (run (run s a).1 b).2) := by
  induction a generalizing s with
  | nil => simp [run]
  | cons e a ih => simp [run, ih]

/-- While the stored count is below the limit, every further call for the key is admitted and
the count climbs to the limit. -/
theorem run_admitted (key : String) (m : Nat) : ∀ (s : LimiterState) (c : Int),
    s.rl.clients key = some c → 0 ≤ c → c + m = s.rl.limit → s.rl.limit ≤ maxInt →
    (run s (List.replicate m (Event.allow key))).2 = List.replicate m (Obs.allow key true 0) ∧
    (run s (List.replicate m (Event.allow key))).1.rl.clients key = some s.rl.limit ∧
    (run s (List.replicate m (Event.allow key))).1.rl.limit = s.rl.limit ∧
    (run s (List.replicate m (Event.allow key))).1.rl.window = s.rl.window := by
  induction m with
  | zero =>
    intro s c hc _ hsum _
    have : c = s.rl.limit := by simpa using hsum
    simp [run, hc, this]
  | succ m ih =>
    intro s c hc h0 hsum hmax
    have hlt : c < s.rl.limit := by push_cast at hsum; omega
    have hA := Allow_below s.rl key c hc hlt h0 hmax
    have hstep : step s (Event.allow key) =
        ({ rl := { s.rl with clients := Function.update s.rl.clients key (some (c + 1)) },
           sleeping := s.sleeping }, Obs.allow key true 0) := by
      simp [step, hA]
    have := ih { rl := { s.rl with clients := Function.update s.rl.clients key (some (c + 1)) },
                 sleeping := s.sleeping } (c + 1) (by simp) (by omega)
      (by push_cast at hsum; simp; omega) (by simpa using hmax)
    simp only [List.replicate_succ, run, hstep]
    simpa using this

/-- C1 (amended): for a limiter with `1 ≤ limit` and `0 < window`, and a key absent from the
table, `limit + 1` consecutive `Allow(key)` calls with no expiry in between return `(true, 0)`
for each of the first `limit` calls and `(false, window)` for the last one, a retry hint that is
strictly greater than zero. -/
theorem allow_first_limit_then_denied (s : LimiterState) (key : String) (n : Nat)
    (hn : 1 ≤ n) (hlim : s.rl.limit = n) (hmax : s.rl.limit ≤ maxInt) (hw : 0 < s.rl.window)
    (habs : s.rl.clients key = none) :
    (run s (List.replicate (n + 1) (Event.allow key))).2 =
        List.replicate n (Obs.allow key true 0) ++ [Obs.allow key false s.rl.window] ∧
      0 < s.rl.window := by
  refine ⟨?_, hw⟩
  obtain ⟨k, rfl⟩ : ∃ k, n = k + 1 := ⟨n - 1, by omega⟩
  have hA := Allow_absent s.rl key habs
  obtain ⟨s1, hstep, hs1c, hs1l, hs1w⟩ : ∃ s1 : LimiterState,
      step s (Event.allow key) = (s1, Obs.allow key true 0) ∧ s1.rl.clients key = some 1 ∧
        s1.rl.limit = s.rl.limit ∧ s1.rl.window = s.rl.window :=
    ⟨(step s (Event.allow key)).1, by simp [step, hA], by simp [step, hA], by simp [step, hA],
      by simp [step, hA]⟩
  obtain ⟨h1, h2, h3, h4⟩ := run_admitted key k s1 1 hs1c (by omega)
    (by rw [hs1l, hlim]; push_cast; omega) (by rw [hs1l]; exact hmax)
  generalize hs2 : (run s1 (List.replicate k (Event.allow key))).1 = s2 at h2 h3 h4
  have hF := Allow_full s2.rl key _ h2 (by rw [h3])
  have hlast : step s2 (Event.allow key) = (s2, Obs.allow key false s.rl.window) := by
    simp [step, hF, h4, hs1w]
  rw [List.replicate_succ, List.replicate_succ']
  simp only [run, hstep, run_append, h1, hs2, hlast]
  rw [List.replicate_succ]
  rfl

/-- C1, witness: limit 2, window 5 and the key "a" on a fresh limiter. -/
theorem allow_first_limit_then_denied_witness :
    (run (LimiterState.init 2 5) (List.replicate (2 + 1) (Event.allow "a"))).2 =
        List.replicate 2 (Obs.allow "a" true 0) ++ [Obs.allow "a" false (LimiterState.init 2 5).rl.window] ∧
      0 < (LimiterState.init 2 5).rl.window :=
  allow_first_limit_then_denied (LimiterState.init 2 5) "a" 2 (by decide) (by decide) (by decide)
    (by decide) (by decide)

/-- C1, counterexample: with limit 0 the first call for a new key, which is the
`limit + 1`-th, is admitted; and with window 0 the denied call carries the retry hint 0. -/
theorem allow_limit_zero_admits_first :
    (run (LimiterState.init 0 5) (List.replicate (0 + 1) (Event.allow "a"))).2 = [Obs.allow "a" true 0] ∧
      (run (LimiterState.init 0 5) (List.replicate (0 + 1) (Event.allow "a"))).2 ≠
        List.replicate 0 (Obs.allow "a" true 0) ++ [Obs.allow "a" false 5] ∧
      (run (LimiterState.init 1 0) (List.replicate (1 + 1) (Event.allow "a"))).2 =
        [Obs.allow "a" true 0, Obs.allow "a" false 0] := by
  decide

theorem step_spec (limit : Int) (h1 : 1 ≤ limit) (hmax : limit ≤ maxInt) (s : LimiterState)
    (hinv : CountsBounded limit s) (e : Event) :
    CountsBounded limit (step s e).1 ∧
      ∀ k, storedCount (step s e).1 k =
        if (step s e).2 = Obs.expire k then 0
        else if (step s e).2 = Obs.allow k true 0 then storedCount s k + 1
        else storedCount s k := by
  obtain ⟨hl, hb⟩ := hinv
  cases e with
  | allow ip =>
    cases hc : s.rl.clients ip with
    | none =>
      have hA := Allow_absent s.rl ip hc
      refine ⟨⟨by simp [step, hA, hl], ?_⟩, ?_⟩
      · intro k c
        by_cases hk : k = ip
        · subst hk
          simp only [step, hA, Function.update_same, Option.some.injEq]
          rintro rfl
          exact ⟨le_refl _, h1⟩
        · simp only [step, hA, Function.update_noteq hk]
          exact hb k c
      · intro k
        by_cases hk : k = ip
        · subst hk
          simp [step, hA, storedCount, readCount, hc]
        · have hk2 : ¬ ip = k := fun h => hk h.symm
          simp [step, hA, storedCount, readCount, Function.update_noteq hk, hk2]
    | some c =>
      have hcb := hb ip c hc
      by_cases hlt : c < s.rl.limit
      · have hA := Allow_below s.rl ip c hc hlt (by omega) (by rw [hl]; exact hmax)
        refine ⟨⟨by simp [step, hA, hl], ?_⟩, ?_⟩
        · intro k c2
          by_cases hk : k = ip
          · subst hk
            simp only [step, hA, Function.update_same, Option.some.injEq]
            rintro rfl
            omega
          · simp only [step, hA, Function.update_noteq hk]
            exact hb k c2
        · intro k
          by_cases hk : k = ip
          · subst hk
            simp [step, hA, storedCount, readCount, hc]
          · have hk2 : ¬ ip = k := fun h => hk h.symm
            simp [step, hA, storedCount, readCount, Function.update_noteq hk, hk2]
      · have hA := Allow_full s.rl ip c hc (by omega)
        refine ⟨⟨by simp [step, hA, hl], by simpa [step, hA] using hb⟩, ?_⟩
        intro k
        simp [step, hA, storedCount]
  | expire ip =>
    by_cases hin : ip ∈ s.sleeping
    · refine ⟨⟨by simp [step, hin, resetCount, hl], ?_⟩, ?_⟩
      · intro k c
        by_cases hk : k = ip
        · subst hk
          simp [step, hin, resetCount]
        · simp only [step, hin, resetCount, if_true, Function.update_noteq hk]
          exact hb k c
      · intro k
        by_cases hk : k = ip
        · subst hk
          simp [step, hin, resetCount, storedCount, readCount]
        · have hk2 : ¬ ip = k := fun h => hk h.symm
          simp [step, hin, resetCount, storedCount, readCount, Function.update_noteq hk, hk2]
    · refine ⟨by simpa [step, hin] using And.intro hl hb, ?_⟩
      intro k
      simp [step, hin]

theorem run_spec (limit : Int) (h1 : 1 ≤ limit) (hmax : limit ≤ maxInt) (es : List Event) :
    ∀ s : LimiterState, CountsBounded limit s →
      CountsBounded limit (run s es).1 ∧
        ∀ k, storedCount (run s es).1 k =
          (if Obs.expire k ∈ (run s es).2 then 0 else storedCount s k) +
            admittedInWindow k (run s es).2 := by
  induction es with
  | nil => intro s hs; simp [run, admittedInWindow, hs]
  | cons e es ih =>
    intro s hs
    obtain ⟨hs1, hc1⟩ := step_spec limit h1 hmax s hs e
    obtain ⟨hs2, hc2⟩ := ih (step s e).1 hs1
    refine ⟨by simpa [run] using hs2, ?_⟩
    intro k
    have e1 := hc1 k
    have e2 := hc2 k
    simp only [run, admittedInWindow, List.mem_cons]
    rw [e2, e1]
    by_cases hin : Obs.expire k ∈ (run (step s e).1 es).2
    · simp [hin]
    · by_cases hx : (step s e).2 = Obs.expire k
      · have hx2 : Obs.expire k = (step s e).2 := hx.symm
        have hx3 : ¬ (step s e).2 = Obs.allow k true 0 := by rw [hx]; simp
        simp [hin, hx, hx3]
      · have hx2 : ¬ Obs.expire k = (step s e).2 := fun h => hx h.symm
        by_cases hy : (step s e).2 = Obs.allow k true 0
        · simp [hin, hx, hx2, hy]
          ring
        · simp [hin, hx, hx2, hy]

theorem init_countsBounded (limit window : Int) : CountsBounded limit (LimiterState.init limit window) := by
  simp [CountsBounded, LimiterState.init, NewFixedWindowRateLimiter]

theorem storedCount_le (limit : Int) (h1 : 1 ≤ limit) (s : LimiterState) (hs : CountsBounded limit s)
    (k : String) : storedCount s k ≤ limit := by
  unfold storedCount readCount
  cases hc : s.rl.clients k with
  | none => simp; omega
  | some c => simpa using (hs.2 k c hc).2

/-- C2: for a limiter with `1 ≤ limit`, in every state reached from the empty table by `Allow`
steps and expiry steps, every stored count lies between 1 and `limit`, and for every key the
number of `Allow` calls admitted since the creation of its current entry (since its last expiry)
is at most `limit`. -/
theorem admitted_per_window_le_limit (limit window : Int) (h1 : 1 ≤ limit) (hmax : limit ≤ maxInt)
    (es : List Event) :
    (∀ k c, (run (LimiterState.init limit window) es).1.rl.clients k = some c → 1 ≤ c ∧ c ≤ limit) ∧
      ∀ k, (admittedInWindow k (run (LimiterState.init limit window) es).2 : Int) ≤ limit := by
  obtain ⟨hb, hc⟩ := run_spec limit h1 hmax es (LimiterState.init limit window)
    (init_countsBounded limit window)
  refine ⟨hb.2, ?_⟩
  intro k
  have h0 : storedCount (LimiterState.init limit window) k = 0 := by
    simp [storedCount, readCount, LimiterState.init, NewFixedWindowRateLimiter]
  have hle := storedCount_le limit h1 _ hb k
  have hk := hc k
  rw [h0] at hk
  have : (admittedInWindow k (run (LimiterState.init limit window) es).2 : Int) =
      storedCount (run (LimiterState.init limit window) es).1 k := by
    rw [hk]; simp
  omega

/-- C2, witness: limit 2 and the steps allow a, allow a, allow a, expire a, allow a. -/
theorem admitted_per_window_le_limit_witness :
    (∀ k c, (run (LimiterState.init 2 5) [Event.allow "a", Event.allow "a", Event.allow "a",
        Event.expire "a", Event.allow "a"]).1.rl.clients k = some c → 1 ≤ c ∧ c ≤ 2) ∧
      ∀ k, (admittedInWindow k (run (LimiterState.init 2 5) [Event.allow "a", Event.allow "a",
        Event.allow "a", Event.expire "a", Event.allow "a"]).2 : Int) ≤ 2 :=
  admitted_per_window_le_limit 2 5 (by decide) (by decide) _

theorem Allow_limit (rl : FixedWindowRateLimiter) (ip : String) :
    (Allow rl ip).rl.limit = rl.limit := by
  unfold Allow allowWrite
  split <;> rfl

theorem Allow_clients_ne (rl : FixedWindowRateLimiter) (ip k : String) (hk : k ≠ ip) :
    (Allow rl ip).rl.clients k = rl.clients k := by
  unfold Allow allowWrite
  split
  · simp [Function.update_noteq hk]
  · rfl

theorem Allow_present (rl : FixedWindowRateLimiter) (ip : String) (c : Int)
    (h : rl.clients ip = some c) :
    (Allow rl ip).spawned = false ∧ (Allow rl ip).rl.clients ip ≠ none := by
  unfold Allow allowWrite
  split
  · simp [readCount, h]
  · simp [h]

theorem Allow_admitted_eq (rl : FixedWindowRateLimiter) (k : String) :
    (Allow rl k).admitted = (!(readCount rl k).2 || decide ((readCount rl k).1 < rl.limit)) := by
  unfold Allow allowWrite
  split <;> simp_all

theorem Allow_admitted_congr (rl rl2 : FixedWindowRateLimiter) (k : String)
    (hc : rl2.clients k = rl.clients k) (hl : rl2.limit = rl.limit) :
    (Allow rl2 k).admitted = (Allow rl k).admitted := by
  rw [Allow_admitted_eq, Allow_admitted_eq]
  unfold readCount
  rw [hc, hl]

theorem Allow_denied (rl : FixedWindowRateLimiter) (k : String)
    (h : (Allow rl k).admitted = false) : ∃ c, rl.clients k = some c ∧ rl.limit ≤ c := by
  cases hc : rl.clients k with
  | none => rw [Allow_absent rl k hc] at h; simp at h
  | some c =>
    refine ⟨c, rfl, ?_⟩
    by_contra hlt
    have hlt2 : c < rl.limit := by omega
    simp [Allow, allowWrite, readCount, hc, hlt2] at h

theorem step_oneExpiry (s : LimiterState) (hs : OneExpiryPerKey s) (e : Event) :
    OneExpiryPerKey (step s e).1 := by
  obtain ⟨hnd, hmem⟩ := hs
  cases e with
  | allow ip =>
    cases hc : s.rl.clients ip with
    | none =>
      have hA := Allow_absent s.rl ip hc
      have hnot : ip ∉ s.sleeping := fun h => (hmem ip).1 h hc
      refine ⟨by simp [step, hA, hnd, hnot], ?_⟩
      intro k
      by_cases hk : k = ip
      · subst hk; simp [step, hA]
      · simp [step, hA, Function.update_noteq hk, hk, hmem k]
    | some c =>
      obtain ⟨hsp, hne⟩ := Allow_present s.rl ip c hc
      refine ⟨by simp [step, hsp, hnd], ?_⟩
      intro k
      by_cases hk : k = ip
      · subst hk
        simp only [step, hsp]
        simp [hmem k, hc, hne]
      · simp only [step, hsp, Allow_clients_ne s.rl ip k hk]
        simpa using hmem k
  | expire ip =>
    by_cases hin : ip ∈ s.sleeping
    · refine ⟨by simpa [step, hin] using hnd.erase ip, ?_⟩
      intro k
      by_cases hk : k = ip
      · subst hk
        simp [step, hin, resetCount, hnd.mem_erase_iff]
      · simp [step, hin, resetCount, hnd.mem_erase_iff, hk, Function.update_noteq hk, hmem k]
    · simpa [step, hin] using And.intro hnd hmem

theorem run_oneExpiry (es : List Event) :
    ∀ s : LimiterState, OneExpiryPerKey s → OneExpiryPerKey (run s es).1 := by
  induction es with
  | nil => intro s hs; simpa [run] using hs
  | cons e es ih =>
    intro s hs
    simpa [run] using ih _ (step_oneExpiry s hs e)

theorem init_oneExpiry (limit window : Int) : OneExpiryPerKey (LimiterState.init limit window) := by
  simp [OneExpiryPerKey, LimiterState.init, NewFixedWindowRateLimiter]

/-- In the sequential model, a key that `Allow` denies has its expiry scheduled: in every state
reached from the empty table by complete `Allow` calls and expiry steps, a denied key has a
sleeping `resetCount` goroutine. -/
theorem denied_key_has_expiry_scheduled (limit window : Int) (es : List Event) (key : String)
    (hden : (Allow (run (LimiterState.init limit window) es).1.rl key).admitted = false) :
    key ∈ (run (LimiterState.init limit window) es).1.sleeping := by
  have hinv := run_oneExpiry es _ (init_oneExpiry limit window)
  obtain ⟨c, hc, -⟩ := Allow_denied _ key hden
  exact (hinv.2 key).2 (by simp [hc])

theorem step_denied_unchanged (s : LimiterState) (key : String)
    (hden : (Allow s.rl key).admitted = false) : (step s (Event.allow key)).1 = s := by
  obtain ⟨c, hc, hle⟩ := Allow_denied s.rl key hden
  simp [step, Allow_full s.rl key c hc hle]

theorem step_keeps_denied (s : LimiterState) (key : String) (e : Event) (he : e ≠ Event.expire key)
    (hden : (Allow s.rl key).admitted = false) :
    (Allow (step s e).1.rl key).admitted = false := by
  cases e with
  | allow ip =>
    by_cases hk : key = ip
    · subst hk
      rw [step_denied_unchanged s key hden]
      exact hden
    · rw [← hden]
      exact Allow_admitted_congr _ _ key (Allow_clients_ne s.rl ip key hk) (Allow_limit s.rl ip)
  | expire ip =>
    have hk : key ≠ ip := fun h => he (by rw [h])
    by_cases hin : ip ∈ s.sleeping
    · rw [← hden]
      apply Allow_admitted_congr
      · simp [step, hin, resetCount, Function.update_noteq hk]
      · simp [step, hin, resetCount]
    · simpa [step, hin] using hden

/-- C5: if `Allow(key)` is denied in some state, the call leaves the state (the clients table
included) unchanged, and after any sequence of `Allow` calls for any keys and expiries of other
keys, as long as the expiry of `key` has not run, `Allow(key)` is still denied. -/
theorem denied_until_expiry (s : LimiterState) (key : String)
    (hden : (Allow s.rl key).admitted = false) :
    (step s (Event.allow key)).1 = s ∧
      ∀ es : List Event, Event.expire key ∉ es →
        (Allow (run s es).1.rl key).admitted = false := by
  refine ⟨step_denied_unchanged s key hden, ?_⟩
  intro es
  induction es generalizing s with
  | nil => intro _; simpa [run] using hden
  | cons e es ih =>
    intro hnot
    have he : e ≠ Event.expire key := fun h => hnot (by simp [h])
    have hes : Event.expire key ∉ es := fun h => hnot (by simp [h])
    simpa [run] using ih (step s e).1 (step_keeps_denied s key e he hden) hes

/-- C5, witness: limit 1, the key "a" already admitted once. -/
theorem denied_until_expiry_witness :
    (step (run (LimiterState.init 1 5) [Event.allow "a"]).1 (Event.allow "a")).1 =
        (run (LimiterState.init 1 5) [Event.allow "a"]).1 ∧
      ∀ es : List Event, Event.expire "a" ∉ es →
        (Allow (run (run (LimiterState.init 1 5) [Event.allow "a"]).1 es).1.rl "a").admitted = false :=
  denied_until_expiry (run (LimiterState.init 1 5) [Event.allow "a"]).1 "a" (by decide)

/-- Run without interference, the two sections of a call are exactly `Allow`. -/
theorem advance_twice_eq_step (s : LimiterState) (ip : String) :
    advance (advance s (Call.start ip)).1 (advance s (Call.start ip)).2 =
      ((step s (Event.allow ip)).1,
        Call.returned ip (Allow s.rl ip).admitted (Allow s.rl ip).retryAfter) := rfl

/-- C3, the race: limit 1 and two concurrent `Allow("a")` calls on a fresh limiter. When both
calls read before either writes, both are admitted, the stored count becomes 2, and two expiry
goroutines are started for the one key. -/
theorem concurrent_allow_exceeds_limit :
    admittedCalls "a" (crun ⟨LimiterState.init 1 5, [Call.start "a", Call.start "a"]⟩
        [Sched.call 0, Sched.call 1, Sched.call 0, Sched.call 1]) = 2 ∧
      (crun ⟨LimiterState.init 1 5, [Call.start "a", Call.start "a"]⟩
        [Sched.call 0, Sched.call 1, Sched.call 0, Sched.call 1]).calls =
          [Call.returned "a" true 0, Call.returned "a" true 0] ∧
      (crun ⟨LimiterState.init 1 5, [Call.start "a", Call.start "a"]⟩
        [Sched.call 0, Sched.call 1, Sched.call 0, Sched.call 1]).state.rl.clients "a" = some 2 ∧
      (crun ⟨LimiterState.init 1 5, [Call.start "a", Call.start "a"]⟩
        [Sched.call 0, Sched.call 1, Sched.call 0, Sched.call 1]).state.sleeping = ["a", "a"] := by
  decide

end ratelimiter

/-! ## Properties of the token authenticator -/

namespace auth

/-- What a successful `Parse` implies: the method is registered, allowed and an HMAC method, the
key function produced a key under which the signature verifies, and the claims validate. -/
theorem Parse_ok (p : Parser) (mac : String → String → MapClaims → List Nat) (now : Int)
    (alg : String) (claims : MapClaims) (signature : List Nat)
    (keyFunc : String → Except String String) (v : Token)
    (h : p.Parse mac now (.compact alg claims signature) keyFunc = .ok v) :
    alg ∈ registeredMethods ∧ (∀ ms, p.validMethods = some ms → alg ∈ ms) ∧
      alg ∈ hmacMethods ∧ (∃ key, keyFunc alg = .ok key ∧ signature = mac key alg claims) ∧
      p.validate now claims = [] ∧
      v = { alg := alg, claims := claims, signature := signature, valid := true } := by
  unfold Parser.Parse at h
  simp only at h
  split at h
  · cases h
  · rename_i hreg
    split at h
    · cases h
    · rename_i hvm
      split at h
      · cases h
      · rename_i key hkey
        split at h
        · cases h
        · rename_i hsig
          split at h
          · rename_i hval
            refine ⟨by simpa using hreg, ?_, ?_, ⟨key, hkey, ?_⟩, hval, ?_⟩
            · intro ms hms
              rw [hms] at hvm
              simpa using hvm
            · by_contra hc; exact hsig (Or.inl hc)
            · by_contra hc; exact hsig (Or.inr hc)
            · cases h; rfl
          · cases h

theorem NewParser_ValidateToken (a : JWTAuthenticator) :
    NewParser [.WithExpirationRequired, .WithAudience a.aud, .WithIssuer a.aud,
      .WithValidMethods ["HS256"]] =
      { requireExp := true, expectedAud := a.aud, expectedIss := a.aud,
        validMethods := some ["HS256"] } := rfl

/-- What a successful `ValidateToken` implies. -/
theorem ValidateToken_ok (mac : String → String → MapClaims → List Nat) (a : JWTAuthenticator)
    (now : Int) (alg : String) (claims : MapClaims) (signature : List Nat) (v : Token)
    (h : a.ValidateToken mac now (.compact alg claims signature) = .ok v) :
    alg = "HS256" ∧ signature = mac a.secret alg claims ∧
      verifyExpiresAt claims now true = [] ∧
      v = { alg := alg, claims := claims, signature := signature, valid := true } := by
  unfold JWTAuthenticator.ValidateToken at h
  rw [NewParser_ValidateToken] at h
  obtain ⟨-, hvm, hh, ⟨key, hkey, hsig⟩, hval, hv⟩ := Parse_ok _ mac now alg claims signature _ v h
  have halg : alg = "HS256" := by simpa using hvm ["HS256"] rfl
  have hk : key = a.secret := by
    unfold JWTAuthenticator.keyFunc at hkey
    split at hkey
    · cases hkey
    · cases hkey; rfl
  refine ⟨halg, by rw [← hk]; exact hsig, ?_, hv⟩
  unfold Parser.validate at hval
  simp only [List.append_eq_nil] at hval
  exact hval.1.1.1

/-- C6, the failing input: the authenticator built with audience "A" and issuer "I" accepts a
correctly signed, unexpired token whose `aud` claim is "I", not "A". -/
theorem validate_accepts_other_audience (mac : String → String → MapClaims → List Nat) :
    (NewJWTAuthenticator "s" "A" "I").ValidateToken mac 0
        (.compact "HS256"
          [("sub", .num 7), ("exp", .num 10), ("aud", .str "I"), ("iss", .str "I")]
          (mac "s" "HS256"
            [("sub", .num 7), ("exp", .num 10), ("aud", .str "I"), ("iss", .str "I")])) =
      .ok { alg := "HS256",
            claims := [("sub", .num 7), ("exp", .num 10), ("aud", .str "I"), ("iss", .str "I")],
            signature := mac "s" "HS256"
              [("sub", .num 7), ("exp", .num 10), ("aud", .str "I"), ("iss", .str "I")],
            valid := true } := by
  simp [JWTAuthenticator.ValidateToken, NewJWTAuthenticator, NewParser, Parser.Parse,
    JWTAuthenticator.keyFunc, registeredMethods, hmacMethods, Parser.validate, verifyExpiresAt,
    verifyNotBefore, verifyAudience, verifyIssuer, List.lookup]

/-- C7, the failing input: the authenticator built with audience "A" and issuer "I" rejects the
token it generated itself from claims with subject 7, a future `exp`, issuer "I" and audience
"A": the audience check compares `aud` with "I". -/
theorem validate_rejects_own_token (mac : String → String → MapClaims → List Nat) :
    (NewJWTAuthenticator "s" "A" "I").GenerateToken mac
        [("sub", .num 7), ("exp", .num 10), ("iss", .str "I"), ("aud", .str "A")] =
      .ok (.compact "HS256"
        [("sub", .num 7), ("exp", .num 10), ("iss", .str "I"), ("aud", .str "A")]
        (mac "s" "HS256"
          [("sub", .num 7), ("exp", .num 10), ("iss", .str "I"), ("aud", .str "A")])) ∧
      (NewJWTAuthenticator "s" "A" "I").ValidateToken mac 0
        (.compact "HS256"
          [("sub", .num 7), ("exp", .num 10), ("iss", .str "I"), ("aud", .str "A")]
          (mac "s" "HS256"
            [("sub", .num 7), ("exp", .num 10), ("iss", .str "I"), ("aud", .str "A")])) =
      .error (.invalidClaims [.invalidAudience]) := by
  simp [JWTAuthenticator.ValidateToken, JWTAuthenticator.GenerateToken, NewJWTAuthenticator,
    NewParser, Parser.Parse, JWTAuthenticator.keyFunc, registeredMethods, hmacMethods,
    Parser.validate, verifyExpiresAt, verifyNotBefore, verifyAudience, verifyIssuer, List.lookup]

/-- C8: `ValidateToken` rejects every token without an `exp` claim and every token whose `exp`
is not later than the verification time, whatever its algorithm, signature, issuer and
audience. -/
theorem validate_rejects_missing_or_past_exp (mac : String → String → MapClaims → List Nat)
    (a : JWTAuthenticator) (now : Int) (alg : String) (claims : MapClaims) (signature : List Nat)
    (h : claims.lookup "exp" = none ∨ ∃ t, claims.lookup "exp" = some (.num t) ∧ t ≤ now) :
    ∃ e, a.ValidateToken mac now (.compact alg claims signature) = .error e := by
  cases hr : a.ValidateToken mac now (.compact alg claims signature) with
  | error e => exact ⟨e, rfl⟩
  | ok v =>
    exfalso
    obtain ⟨-, -, hexp, -⟩ := ValidateToken_ok mac a now alg claims signature v hr
    unfold verifyExpiresAt at hexp
    rcases h with h | ⟨t, ht, hle⟩
    · simp [h] at hexp
    · rw [ht] at hexp
      by_cases h0 : t = 0
      · simp [h0] at hexp
      · have : ¬ now < t := by omega
        simp [h0, this] at hexp

/-- C8, witness: a token signed with the right secret, with the right issuer and audience, whose
`exp` equals the verification time. -/
theorem validate_rejects_missing_or_past_exp_witness :
    ∃ e, (NewJWTAuthenticator "s" "I" "I").ValidateToken toyMac 10
      (.compact "HS256" [("exp", .num 10), ("aud", .str "I"), ("iss", .str "I")]
        (toyMac "s" "HS256" [("exp", .num 10), ("aud", .str "I"), ("iss", .str "I")])) =
      .error e :=
  validate_rejects_missing_or_past_exp toyMac (NewJWTAuthenticator "s" "I" "I") 10 "HS256"
    [("exp", .num 10), ("aud", .str "I"), ("iss", .str "I")] _
    (Or.inr ⟨10, rfl, le_refl _⟩)

/-- C9: `ValidateToken` rejects every token whose header algorithm is not HS256, whatever its
claims and signature bytes; a token is accepted only if its algorithm is HS256. -/
theorem validate_rejects_other_alg (mac : String → String → MapClaims → List Nat)
    (a : JWTAuthenticator) (now : Int) (alg : String) (claims : MapClaims) (signature : List Nat)
    (h : alg ≠ "HS256") :
    ∃ e, a.ValidateToken mac now (.compact alg claims signature) = .error e := by
  cases hr : a.ValidateToken mac now (.compact alg claims signature) with
  | error e => exact ⟨e, rfl⟩
  | ok v => exact absurd (ValidateToken_ok mac a now alg claims signature v hr).1 h

/-- C9, witness: an unexpired token with the right issuer and audience, correctly signed under
the configured secret with HS512. -/
theorem validate_rejects_other_alg_witness :
    ∃ e, (NewJWTAuthenticator "s" "I" "I").ValidateToken toyMac 0
      (.compact "HS512" [("exp", .num 10), ("aud", .str "I"), ("iss", .str "I")]
        (toyMac "s" "HS512" [("exp", .num 10), ("aud", .str "I"), ("iss", .str "I")])) =
      .error e :=
  validate_rejects_other_alg toyMac (NewJWTAuthenticator "s" "I" "I") 0 "HS512"
    [("exp", .num 10), ("aud", .str "I"), ("iss", .str "I")] _ (by decide)

end auth


/-! ## Properties of the bearer-token middleware -/

namespace api

/-- A request whose `Authorization` header is absent, or does not split into exactly two parts
the first of which is "Bearer", is answered by `unauthorizedErrorResponse` and nothing else. -/
theorem AuthTokenMiddleware_bad_header (app : application)
    (Sprintf : Option auth.Value → String) (r : Request)
    (h : r.Authorization = none ∨ ∃ hd, r.Authorization = some hd ∧
      ((strings.Split hd).length ≠ 2 ∨ (strings.Split hd).head? ≠ some "Bearer")) :
    ∃ err, app.AuthTokenMiddleware Sprintf r = app.unauthorizedErrorResponse r err := by
  unfold application.AuthTokenMiddleware
  simp only
  by_cases he : r.headerGetAuthorization = ""
  · exact ⟨_, by rw [if_pos he]⟩
  · rw [if_neg he]
    rcases h with h | ⟨hd, hhd, hparts⟩
    · exact absurd (by simp [Request.headerGetAuthorization, h]) he
    · have hget : r.headerGetAuthorization = hd := by simp [Request.headerGetAuthorization, hhd]
      rw [hget]
      exact ⟨_, by rw [if_pos hparts]⟩

/-- C10 (amended): for every request whose `Authorization` header is absent, or whose value
split on single spaces does not have exactly two parts with first part "Bearer" (the second
part may be empty), the handler makes exactly the two calls of `unauthorizedErrorResponse`, the
log entry and the status 401 response: the response status is 401, the next handler is not
invoked in any form, and no call is made on the authenticator, the cache, the store, the role
store or `jsonResponse`. -/
theorem auth_middleware_rejects_bad_header (app : application)
    (Sprintf : Option auth.Value → String) (r : Request)
    (h : r.Authorization = none ∨ ∃ hd, r.Authorization = some hd ∧
      ((strings.Split hd).length ≠ 2 ∨ (strings.Split hd).head? ≠ some "Bearer")) :
    (∃ err, app.AuthTokenMiddleware Sprintf r =
        [Effect.log "warn" "unauthorized error" ["method", r.Method, "path", r.Path, "error", err],
          Effect.writeJSONError 401 "unauthorized"]) ∧
      responseStatus (app.AuthTokenMiddleware Sprintf r) = some 401 ∧
      nextCalls (app.AuthTokenMiddleware Sprintf r) = 0 ∧
      ∀ e ∈ app.AuthTokenMiddleware Sprintf r,
        (∀ t, e ≠ Effect.validateToken t) ∧ (∀ id, e ≠ Effect.cacheGet id) ∧
          (∀ id, e ≠ Effect.storeGetByID id) ∧ (∀ u, e ≠ Effect.cacheSet u) ∧
          (∀ email, e ≠ Effect.storeGetByEmail email) ∧
          (∀ name, e ≠ Effect.rolesGetByName name) ∧
          (∀ u, e ≠ Effect.next u) ∧ e ≠ Effect.nextRequest ∧ (∀ q, e ≠ Effect.nextPost q) := by
  obtain ⟨err, herr⟩ := AuthTokenMiddleware_bad_header app Sprintf r h
  rw [herr]
  refine ⟨⟨err, rfl⟩, rfl, rfl, ?_⟩
  intro e he
  simp only [application.unauthorizedErrorResponse, List.mem_cons, List.mem_singleton,
    List.mem_nil_iff, or_false] at he
  rcases he with rfl | rfl <;> simp

/-- C10, witness: a request to `/v1/users/1` without an `Authorization` header, as in
`TestGetUser`. -/
theorem auth_middleware_rejects_bad_header_witness :
    responseStatus (testApplication.AuthTokenMiddleware testSprintf
        ⟨"GET", "/v1/users/1", none⟩) = some 401 ∧
      nextCalls (testApplication.AuthTokenMiddleware testSprintf
        ⟨"GET", "/v1/users/1", none⟩) = 0 :=
  ⟨(auth_middleware_rejects_bad_header testApplication testSprintf ⟨"GET", "/v1/users/1", none⟩
      (Or.inl rfl)).2.1,
    (auth_middleware_rejects_bad_header testApplication testSprintf ⟨"GET", "/v1/users/1", none⟩
      (Or.inl rfl)).2.2.1⟩

/-- C10, counterexample: the header "Bearer " (the word, one space, nothing else) does not
consist of "Bearer" and a token, yet it splits into the two parts "Bearer" and the empty
string, passes the test of the handler, and the authenticator is called with the empty
token. -/
theorem auth_middleware_empty_token_reaches_authenticator :
    strings.Split "Bearer " = ["Bearer", ""] ∧
      testApplication.AuthTokenMiddleware testSprintf ⟨"GET", "/v1/users/1", some "Bearer "⟩ =
        Effect.validateToken "" ::
          testApplication.unauthorizedErrorResponse ⟨"GET", "/v1/users/1", some "Bearer "⟩
            "token is malformed" ∧
      Effect.validateToken "" ∈
        testApplication.AuthTokenMiddleware testSprintf
          ⟨"GET", "/v1/users/1", some "Bearer "⟩ := by
  have h : testApplication.AuthTokenMiddleware testSprintf
      ⟨"GET", "/v1/users/1", some "Bearer "⟩ =
        Effect.validateToken "" ::
          testApplication.unauthorizedErrorResponse ⟨"GET", "/v1/users/1", some "Bearer "⟩
            "token is malformed" := by
    rfl
  refine ⟨by decide, h, ?_⟩
  rw [h]
  exact List.mem_cons_self _ _

end api

/-! ## Properties of `strings.Split` and `strings.SplitN` -/

namespace strings

theorem splitAux_no_space (l : List Char) : ∀ acc : List Char, Char.ofNat 32 ∉ l →
    splitAux acc l = [acc.reverse ++ l] := by
  induction l with
  | nil => intro acc _; simp [splitAux]
  | cons c cs ih =>
    intro acc h
    have hc : c ≠ Char.ofNat 32 := fun e => h (by simp [e])
    have hcs : Char.ofNat 32 ∉ cs := fun e => h (by simp [e])
    simp [splitAux, hc, ih (c :: acc) hcs]

theorem splitAux_first_space (l1 l2 : List Char) : ∀ acc : List Char, Char.ofNat 32 ∉ l1 →
    splitAux acc (l1 ++ Char.ofNat 32 :: l2) = (acc.reverse ++ l1) :: splitAux [] l2 := by
  induction l1 with
  | nil => intro acc _; simp [splitAux]
  | cons c cs ih =>
    intro acc h
    have hc : c ≠ Char.ofNat 32 := fun e => h (by simp [e])
    have hcs : Char.ofNat 32 ∉ cs := fun e => h (by simp [e])
    simp [splitAux, hc, ih (c :: acc) hcs]

/-- A header made of a word, one space and a token without spaces splits into exactly these two
parts. -/
theorem Split_two (w t : String) (hw : Char.ofNat 32 ∉ w.toList) (ht : Char.ofNat 32 ∉ t.toList) :
    Split (w ++ " " ++ t) = [w, t] := by
  have h1 : (w ++ " " ++ t).toList = w.toList ++ Char.ofNat 32 :: t.toList := by
    simp [String.toList]
  unfold Split
  rw [h1, splitAux_first_space _ _ _ hw, splitAux_no_space _ _ ht]
  simp

theorem splitNAux_append (l : List Char) : ∀ (acc : List Char) (x y : List Char),
    splitNAux acc l = [x, y] → acc.reverse ++ l = x ++ Char.ofNat 58 :: y := by
  induction l with
  | nil => intro acc x y h; simp [splitNAux] at h
  | cons c cs ih =>
    intro acc x y h
    by_cases hc : c = Char.ofNat 58
    · simp [splitNAux, hc] at h
      obtain ⟨h1, h2⟩ := h
      simp [hc, ← h1, ← h2]
    · simp only [splitNAux, hc, if_false] at h
      have := ih (c :: acc) x y h
      simpa using this

/-- When `SplitN` yields two parts, the string is the first part, a colon, and the second. -/
theorem SplitN_two (s x y : String) (h : SplitN s = [x, y]) : s = x ++ ":" ++ y := by
  unfold SplitN at h
  match hs : splitNAux [] s.toList, h with
  | [a, b], h =>
    simp only [List.map_cons, List.map_nil, List.cons.injEq, and_true] at h
    obtain ⟨rfl, rfl⟩ := h
    have := splitNAux_append s.toList [] a b hs
    simp only [List.reverse_nil, List.nil_append] at this
    apply String.ext
    simp only [String.data_append]
    rw [show s.data = s.toList from rfl, this]
    simp

theorem splitNAux_first_colon (l1 l2 : List Char) : ∀ acc : List Char, Char.ofNat 58 ∉ l1 →
    splitNAux acc (l1 ++ Char.ofNat 58 :: l2) = [acc.reverse ++ l1, l2] := by
  induction l1 with
  | nil => intro acc _; simp [splitNAux]
  | cons c cs ih =>
    intro acc h
    have hc : c ≠ Char.ofNat 58 := fun e => h (by simp [e])
    have hcs : Char.ofNat 58 ∉ cs := fun e => h (by simp [e])
    simp [splitNAux, hc, ih (c :: acc) hcs]

/-- A user name without a colon, a colon and a password split into exactly these two parts. -/
theorem SplitN_credentials (u p : String) (hu : Char.ofNat 58 ∉ u.toList) :
    SplitN (u ++ ":" ++ p) = [u, p] := by
  have h1 : (u ++ ":" ++ p).toList = u.toList ++ Char.ofNat 58 :: p.toList := by
    simp [String.toList]
  unfold SplitN
  rw [h1, splitNAux_first_colon _ _ _ hu]
  simp

end strings

/-! ## Properties of the authorization handlers and of `getUser` -/

namespace api

/-- C12: when the role store's `GetByName` fails for the role name, `checkRolePrecedence`
returns `false` and that error; when it yields a role, `checkRolePrecedence` returns no error
and the boolean `user.Role.Level >= role.Level`: true when the user's level is at least the
role's level, false when it is strictly lower. -/
theorem checkRolePrecedence_result (app : application) (user : User) (roleName : String) :
    (∀ err, app.GetByName roleName = .error err →
        (app.checkRolePrecedence user roleName).2 = (false, some err)) ∧
      (∀ role, app.GetByName roleName = .ok role →
        (app.checkRolePrecedence user roleName).2 =
            (decide (user.Role.Level ≥ role.Level), none) ∧
          (role.Level ≤ user.Role.Level → (app.checkRolePrecedence user roleName).2.1 = true) ∧
          (user.Role.Level < role.Level → (app.checkRolePrecedence user roleName).2.1 = false)) := by
  constructor
  · intro err h
    simp [application.checkRolePrecedence, h]
  · intro role h
    refine ⟨by simp [application.checkRolePrecedence, h], ?_, ?_⟩
    · intro hle
      simp [application.checkRolePrecedence, h, hle]
    · intro hlt
      simp [application.checkRolePrecedence, h, hlt]

/-- C12, witness: on the test application a user of level 1 is checked against the missing
role "nope" and against the role "admin" of level 3. -/
theorem checkRolePrecedence_result_witness :
    (testApplication.checkRolePrecedence cache.testUser "nope").2 =
        (false, some "sql: no rows in result set") ∧
      (testApplication.checkRolePrecedence cache.testUser "admin").2 = (false, none) :=
  ⟨(checkRolePrecedence_result testApplication cache.testUser "nope").1 _ rfl,
    ((checkRolePrecedence_result testApplication cache.testUser "admin").2
      { ID := 3, Name := "admin", Level := 3, Description := "" } rfl).1⟩

/-- C13: when the post belongs to the user, `checkPostOwnership` invokes the next handler and
does nothing else: no call of the role store, whatever the user's level and whether or not the
required role exists. -/
theorem owner_passes_without_role_lookup (app : application) (requiredRole : String)
    (r : Request) (user : User) (post : Post) (hown : post.UserID = user.ID) :
    app.checkPostOwnership requiredRole r user post = [Effect.nextRequest] ∧
      nextCalls (app.checkPostOwnership requiredRole r user post) = 1 ∧
      ∀ name, Effect.rolesGetByName name ∉ app.checkPostOwnership requiredRole r user post := by
  have h : app.checkPostOwnership requiredRole r user post = [Effect.nextRequest] := by
    simp [application.checkPostOwnership, hown]
  rw [h]
  exact ⟨rfl, rfl, by simp⟩

/-- C13, witness: the user 42 (level 1) on a post of user 42, with a required role that does not
exist. -/
theorem owner_passes_without_role_lookup_witness :
    testApplication.checkPostOwnership "nope" ⟨"PATCH", "/v1/posts/1", none⟩ cache.testUser
        ⟨1, "t", "c", [], 42⟩ = [Effect.nextRequest] ∧
      nextCalls (testApplication.checkPostOwnership "nope" ⟨"PATCH", "/v1/posts/1", none⟩
        cache.testUser ⟨1, "t", "c", [], 42⟩) = 1 ∧
      ∀ name, Effect.rolesGetByName name ∉
        testApplication.checkPostOwnership "nope" ⟨"PATCH", "/v1/posts/1", none⟩ cache.testUser
          ⟨1, "t", "c", [], 42⟩ :=
  owner_passes_without_role_lookup testApplication "nope" ⟨"PATCH", "/v1/posts/1", none⟩
    cache.testUser ⟨1, "t", "c", [], 42⟩ rfl

/-- C14: for a user who is not the owner of the post: when the required role exists and the
user's level is strictly lower, the response status is 403 and the next handler is not invoked;
and the next handler is invoked (in any form, and then as `next.ServeHTTP(w, r)`) if and only if
the role lookup succeeds with a role whose level is at most the user's level. -/
theorem non_owner_needs_precedence (app : application) (requiredRole : String) (r : Request)
    (user : User) (post : Post) (hnot : post.UserID ≠ user.ID) :
    (∀ role, app.GetByName requiredRole = .ok role → user.Role.Level < role.Level →
        responseStatus (app.checkPostOwnership requiredRole r user post) = some 403 ∧
          nextCalls (app.checkPostOwnership requiredRole r user post) = 0) ∧
      (Effect.nextRequest ∈ app.checkPostOwnership requiredRole r user post ↔
        ∃ role, app.GetByName requiredRole = .ok role ∧ role.Level ≤ user.Role.Level) ∧
      (0 < nextCalls (app.checkPostOwnership requiredRole r user post) ↔
        ∃ role, app.GetByName requiredRole = .ok role ∧ role.Level ≤ user.Role.Level) := by
  refine ⟨?_, ?_, ?_⟩
  · intro role hrole hlt
    simp [application.checkPostOwnership, hnot, application.checkRolePrecedence, hrole, hlt,
      application.forbiddenResponse, responseStatus, nextCalls, StatusForbidden]
  · cases hrole : app.GetByName requiredRole with
    | error err =>
      simp [application.checkPostOwnership, hnot, application.checkRolePrecedence, hrole,
        application.internalServerError]
    | ok role =>
      by_cases hle : role.Level ≤ user.Role.Level
      · simp [application.checkPostOwnership, hnot, application.checkRolePrecedence, hrole, hle]
      · simp [application.checkPostOwnership, hnot, application.checkRolePrecedence, hrole, hle,
          application.forbiddenResponse]
  · cases hrole : app.GetByName requiredRole with
    | error err =>
      simp [application.checkPostOwnership, hnot, application.checkRolePrecedence, hrole,
        application.internalServerError, nextCalls]
    | ok role =>
      by_cases hle : role.Level ≤ user.Role.Level
      · simp [application.checkPostOwnership, hnot, application.checkRolePrecedence, hrole, hle,
          nextCalls]
      · simp [application.checkPostOwnership, hnot, application.checkRolePrecedence, hrole, hle,
          application.forbiddenResponse, nextCalls]

/-- C14, witness: the user 42 (level 1) on a post of user 7, required role "admin" (level 3). -/
theorem non_owner_needs_precedence_witness :
    (∀ role, testApplication.GetByName "admin" = .ok role → cache.testUser.Role.Level < role.Level →
        responseStatus (testApplication.checkPostOwnership "admin" ⟨"PATCH", "/v1/posts/1", none⟩
          cache.testUser ⟨1, "t", "c", [], 7⟩) = some 403 ∧
          nextCalls (testApplication.checkPostOwnership "admin" ⟨"PATCH", "/v1/posts/1", none⟩
            cache.testUser ⟨1, "t", "c", [], 7⟩) = 0) ∧
      (Effect.nextRequest ∈ testApplication.checkPostOwnership "admin"
          ⟨"PATCH", "/v1/posts/1", none⟩ cache.testUser ⟨1, "t", "c", [], 7⟩ ↔
        ∃ role, testApplication.GetByName "admin" = .ok role ∧
          role.Level ≤ cache.testUser.Role.Level) ∧
      (0 < nextCalls (testApplication.checkPostOwnership "admin"
          ⟨"PATCH", "/v1/posts/1", none⟩ cache.testUser ⟨1, "t", "c", [], 7⟩) ↔
        ∃ role, testApplication.GetByName "admin" = .ok role ∧
          role.Level ≤ cache.testUser.Role.Level) :=
  non_owner_needs_precedence testApplication "admin" ⟨"PATCH", "/v1/posts/1", none⟩
    cache.testUser ⟨1, "t", "c", [], 7⟩ (by decide)

/-- C15: with the cache disabled, `getUser(id)` returns exactly what the store's `GetByID(id)`
returns, and its only call is that `GetByID`: no cache `Get`, no cache `Set`. -/
theorem getUser_cache_disabled (app : application) (id : Int) (hoff : app.redisEnabled = false) :
    (app.getUser id).2 = app.GetByID id ∧ (app.getUser id).1 = [Effect.storeGetByID id] ∧
      Effect.cacheGet id ∉ (app.getUser id).1 ∧ ∀ u, Effect.cacheSet u ∉ (app.getUser id).1 := by
  have h : app.getUser id = ([Effect.storeGetByID id], app.GetByID id) := by
    simp [application.getUser, hoff]
  rw [h]
  simp

/-- C15, witness: the test application, whose cache is disabled, for the id 1. -/
theorem getUser_cache_disabled_witness :
    (testApplication.getUser 1).2 = testApplication.GetByID 1 ∧
      (testApplication.getUser 1).1 = [Effect.storeGetByID 1] ∧
      Effect.cacheGet 1 ∉ (testApplication.getUser 1).1 ∧
      ∀ u, Effect.cacheSet u ∉ (testApplication.getUser 1).1 :=
  getUser_cache_disabled testApplication 1 rfl

/-- C16 (amended): with the cache enabled: on a hit with record `u`, `getUser` returns `u`
without calling the store or `Set`; on a miss for which the store returns `u`, `getUser` calls
the cache `Set(u)` exactly once, as its last call, and returns `u` when that `Set` succeeds and
the error of `Set` otherwise; on a miss for which the store fails, `getUser` returns that error
and does not call `Set`. -/
theorem getUser_cache_enabled (app : application) (id : Int) (hon : app.redisEnabled = true) :
    (∀ u, app.cacheGet id = .ok (some u) →
        (app.getUser id).2 = .ok u ∧ (∀ id2, Effect.storeGetByID id2 ∉ (app.getUser id).1) ∧
          ∀ v, Effect.cacheSet v ∉ (app.getUser id).1) ∧
      (∀ u, app.cacheGet id = .ok none → app.GetByID id = .ok u →
        (app.getUser id).1.count (Effect.cacheSet u) = 1 ∧
          (∀ v, Effect.cacheSet v ∈ (app.getUser id).1 → v = u) ∧
          (app.getUser id).1.getLast? = some (Effect.cacheSet u) ∧
          (app.cacheSet u = .ok () → (app.getUser id).2 = .ok u) ∧
          (∀ err, app.cacheSet u = .error err → (app.getUser id).2 = .error err)) ∧
      (∀ err, app.cacheGet id = .ok none → app.GetByID id = .error err →
        (app.getUser id).2 = .error err ∧ ∀ v, Effect.cacheSet v ∉ (app.getUser id).1) := by
  refine ⟨?_, ?_, ?_⟩
  · intro u hget
    simp [application.getUser, hon, hget]
  · intro u hget hstore
    cases hset : app.cacheSet u with
    | error err => simp [application.getUser, hon, hget, hstore, hset, List.count_cons]
    | ok x => simp [application.getUser, hon, hget, hstore, hset, List.count_cons]
  · intro err hget hstore
    simp [application.getUser, hon, hget, hstore]

/-- C16, witness: the test application with the cache switched on (it always misses). -/
theorem getUser_cache_enabled_witness :
    ({ testApplication with redisEnabled := true } : application).cacheGet 1 = .ok none ∧
      (({ testApplication with redisEnabled := true } : application).getUser 1).1.count
        (Effect.cacheSet { ID := 1, Username := "u", Email := "u@example.com", Password := [],
                           CreatedAt := "", IsActive := true, RoleID := 1,
                           Role := { ID := 1, Name := "user", Level := 1, Description := "" } })
        = 1 :=
  ⟨rfl, ((getUser_cache_enabled { testApplication with redisEnabled := true } 1 rfl).2.1
    _ rfl rfl).1⟩

/-- C16, counterexample: cache enabled, a miss, the store returns the user 1, and the cache
`Set` fails: `getUser` returns the error of `Set`, not the user. -/
theorem getUser_set_failure_returns_error :
    ({ testApplication with redisEnabled := true,
                            cacheSet := fun _ => .error "connection refused" } :
        application).cacheGet 1 = .ok none ∧
      (∃ u, ({ testApplication with redisEnabled := true,
                                    cacheSet := fun _ => .error "connection refused" } :
        application).GetByID 1 = .ok u) ∧
      (({ testApplication with redisEnabled := true,
                               cacheSet := fun _ => .error "connection refused" } :
        application).getUser 1).2 = .error "connection refused" :=
  ⟨rfl, ⟨_, rfl⟩, rfl⟩

/-- C18, the failing input: cache enabled, the cache backend answers `Get` with a connection
error, and a request carries a valid bearer token. The middleware answers with status 401
"unauthorized"; it does not write the status 500 response of `internalServerError`. -/
theorem cache_error_answered_with_401 :
    responseStatus (({ testApplication with
        redisEnabled := true,
        cacheGet := fun _ => .error "dial tcp: connection refused" } :
          application).AuthTokenMiddleware testSprintf ⟨"GET", "/v1/users/1", some "Bearer good"⟩) = some 401 ∧
      (∀ m, Effect.writeJSONError 500 m ∉ ({ testApplication with
        redisEnabled := true,
        cacheGet := fun _ => .error "dial tcp: connection refused" } :
          application).AuthTokenMiddleware testSprintf ⟨"GET", "/v1/users/1", some "Bearer good"⟩) ∧
      ({ testApplication with
        redisEnabled := true,
        cacheGet := fun _ => .error "dial tcp: connection refused" } :
          application).AuthTokenMiddleware testSprintf ⟨"GET", "/v1/users/1", some "Bearer good"⟩ =
        [Effect.validateToken "good", Effect.log "info" "cache hit" [], Effect.cacheGet 1] ++
          testApplication.unauthorizedErrorResponse ⟨"GET", "/v1/users/1", some "Bearer good"⟩
            "dial tcp: connection refused" := by
  have h : ({ testApplication with
        redisEnabled := true,
        cacheGet := fun _ => .error "dial tcp: connection refused" } :
          application).AuthTokenMiddleware testSprintf ⟨"GET", "/v1/users/1", some "Bearer good"⟩ =
        [Effect.validateToken "good", Effect.log "info" "cache hit" [], Effect.cacheGet 1] ++
          testApplication.unauthorizedErrorResponse ⟨"GET", "/v1/users/1", some "Bearer good"⟩
            "dial tcp: connection refused" := by
    rfl
  rw [h]
  refine ⟨rfl, ?_, rfl⟩
  intro m
  simp [application.unauthorizedErrorResponse, StatusUnauthorized]

end api

/-! ## Properties of the identity cache -/

namespace cache

open api

/-- `UserStore.Get` reports a miss exactly for the reply `redis.Nil`. -/
theorem Get_miss_iff (rdb : Redis) (now : Int) (id : Int) :
    UserStore.Get rdb now id = .ok none ↔ rdb.Get now (cacheKey id) = .error .Nil := by
  unfold UserStore.Get
  cases h : rdb.Get now (cacheKey id) with
  | error e =>
    cases e with
    | Nil => simp
    | other msg => simp
  | ok data =>
    cases data with
    | empty => simp
    | user doc => simp [Unmarshal]
    | invalid => simp [Unmarshal]

/-- C17: with the cache enabled and `cacheStorage.Users` backed by the redis store:
`UserStore.Get` returns `(nil, nil)` exactly for the reply `redis.Nil`; for every other backend
error it returns that error, and `getUser` then returns that error without reading the durable
store; a `Set` on an unreachable backend fails, and a failing `Set` after a store fetch makes
`getUser` return the error. -/
theorem cache_failure_is_error (rdb : Redis) (now : Int) (app : application) (id : Int)
    (hon : app.redisEnabled = true) (hget : app.cacheGet id = UserStore.Get rdb now id) :
    (UserStore.Get rdb now id = .ok none ↔ rdb.Get now (cacheKey id) = .error .Nil) ∧
      (∀ msg, rdb.Get now (cacheKey id) = .error (.other msg) →
        UserStore.Get rdb now id = .error msg ∧ (app.getUser id).2 = .error msg ∧
          ∀ id2, Effect.storeGetByID id2 ∉ (app.getUser id).1) ∧
      (∀ msg u, rdb.failure = some msg → (UserStore.Set rdb now u).2 = .error msg) ∧
      (∀ u msg, app.cacheGet id = .ok none → app.GetByID id = .ok u →
        app.cacheSet u = .error msg → (app.getUser id).2 = .error msg) := by
  refine ⟨Get_miss_iff rdb now id, ?_, ?_, ?_⟩
  · intro msg hreply
    have hG : UserStore.Get rdb now id = .error msg := by
      simp [UserStore.Get, hreply]
    rw [hG] at hget
    refine ⟨hG, ?_, ?_⟩
    · simp [application.getUser, hon, hget]
    · simp [application.getUser, hon, hget]
  · intro msg u hfail
    simp [UserStore.Set, Redis.SetEX, hfail]
  · intro u msg hmiss hstore hset
    simp [application.getUser, hon, hmiss, hstore, hset]

/-- C17, witness: an unreachable redis server behind the cache of the test application. -/
theorem cache_failure_is_error_witness :
    (UserStore.Get { Redis.empty with failure := some "dial tcp: connection refused" } 0 1 =
        .ok none ↔
      Redis.Get { Redis.empty with failure := some "dial tcp: connection refused" } 0
        (cacheKey 1) = .error .Nil) ∧
    (({ testApplication with
        redisEnabled := true,
        cacheGet := fun id =>
          UserStore.Get { Redis.empty with failure := some "dial tcp: connection refused" } 0 id } :
        application).getUser 1).2 = .error "dial tcp: connection refused" :=
  ⟨(cache_failure_is_error { Redis.empty with failure := some "dial tcp: connection refused" }
      0 { testApplication with
            redisEnabled := true,
            cacheGet := fun id =>
              UserStore.Get { Redis.empty with failure := some "dial tcp: connection refused" }
                0 id } 1 rfl rfl).1,
    ((cache_failure_is_error { Redis.empty with failure := some "dial tcp: connection refused" }
      0 { testApplication with
            redisEnabled := true,
            cacheGet := fun id =>
              UserStore.Get { Redis.empty with failure := some "dial tcp: connection refused" }
                0 id } 1 rfl rfl).2.1 "dial tcp: connection refused" rfl).2.1⟩

/-- C19 (amended): on a reachable backend, `Set(u)` at the instant `now` followed by
`Get(u.ID)` at any instant `later` before the expiry (one minute after `now`) returns a record equal to `u` in every
field except the password hash, which is not stored and comes back empty. -/
theorem cache_round_trip (rdb : Redis) (u : User) (now later : Int) (hup : rdb.failure = none)
    (h2 : later < now + UserExpTime) :
    (UserStore.Set rdb now u).2 = .ok () ∧
      UserStore.Get (UserStore.Set rdb now u).1 later u.ID =
        .ok (some { u with Password := [] }) := by
  have hset : UserStore.Set rdb now u =
      (Redis.mk (Function.update rdb.entries (cacheKey u.ID)
        (some (Marshal u, now + UserExpTime))) rdb.failure, .ok ()) := by
    simp [UserStore.Set, Redis.SetEX, hup]
  rw [hset]
  refine ⟨rfl, ?_⟩
  simp [UserStore.Get, Redis.Get, hup, h2, Marshal, Unmarshal, jsonView]

/-- C19, witness: the test user stored at instant 0 and read back at instant 10. -/
theorem cache_round_trip_witness :
    (UserStore.Set Redis.empty 0 testUser).2 = .ok () ∧
      UserStore.Get (UserStore.Set Redis.empty 0 testUser).1 10 testUser.ID =
        .ok (some { testUser with Password := [] }) :=
  cache_round_trip Redis.empty testUser 0 10 rfl (by decide)

/-- C19, counterexample: the test user has a password hash; after `Set` and `Get` the record
that comes back has an empty password hash and so differs from the record stored. -/
theorem cache_round_trip_drops_password :
    UserStore.Get (UserStore.Set Redis.empty 0 testUser).1 10 testUser.ID =
        .ok (some { testUser with Password := [] }) ∧
      testUser.Password = [36, 50, 97] ∧
      UserStore.Get (UserStore.Set Redis.empty 0 testUser).1 10 testUser.ID ≠
        .ok (some testUser) := by
  have h : UserStore.Get (UserStore.Set Redis.empty 0 testUser).1 10 testUser.ID =
      .ok (some { testUser with Password := [] }) := by
    simp [UserStore.Get, UserStore.Set, Redis.Get, Redis.SetEX, Redis.empty, Marshal, Unmarshal,
      jsonView, UserExpTime]
  refine ⟨h, rfl, ?_⟩
  rw [h]
  intro hc
  have := congrArg (fun x => match x with
    | Except.ok (some v) => v.Password
    | _ => []) hc
  simp [testUser] at this

end cache

/-! ## Properties of the basic-auth middleware -/

namespace api

theorem list_two_of_head (l : List String) (a : String) (hl : l.length = 2)
    (hh : l.head? = some a) : l = [a, l.getD 1 ""] := by
  match l, hl, hh with
  | [x, y], _, hh =>
    simp only [List.head?_cons, Option.some.injEq] at hh
    simp [hh]

/-- Whatever the header, the basic-auth handler either rejects or invokes the next handler
once and does nothing else. -/
theorem BasicAuthMiddleware_cases (app : application) (enc : Base64) (r : Request) :
    (∃ err, app.BasicAuthMiddleware enc r = app.unauthorizedBasicErrorResponse r err) ∨
      (app.BasicAuthMiddleware enc r = [Effect.nextRequest] ∧
        ∃ b, strings.Split r.headerGetAuthorization = ["Basic", b] ∧
          enc.DecodeString b = .ok (app.basicUser ++ ":" ++ app.basicPass)) := by
  unfold application.BasicAuthMiddleware
  simp only
  by_cases he : r.headerGetAuthorization = ""
  · exact Or.inl ⟨_, by rw [if_pos he]⟩
  · rw [if_neg he]
    by_cases hparts : (strings.Split r.headerGetAuthorization).length ≠ 2 ∨
        (strings.Split r.headerGetAuthorization).head? ≠ some "Basic"
    · exact Or.inl ⟨_, by rw [if_pos hparts]⟩
    · rw [if_neg hparts]
      have hp : strings.Split r.headerGetAuthorization =
          ["Basic", (strings.Split r.headerGetAuthorization).getD 1 ""] := by
        apply list_two_of_head
        · by_contra hc; exact hparts (Or.inl hc)
        · by_contra hc; exact hparts (Or.inr hc)
      cases hd : enc.DecodeString ((strings.Split r.headerGetAuthorization).getD 1 "") with
      | error err => exact Or.inl ⟨err, rfl⟩
      | ok decoded =>
        simp only
        by_cases hcreds : (strings.SplitN decoded).length ≠ 2 ∨
            (strings.SplitN decoded).head? ≠ some app.basicUser ∨
            (strings.SplitN decoded).getD 1 "" ≠ app.basicPass
        · exact Or.inl ⟨_, by rw [if_pos hcreds]⟩
        · rw [if_neg hcreds]
          refine Or.inr ⟨rfl, _, hp, ?_⟩
          have hc2 : strings.SplitN decoded = [app.basicUser, (strings.SplitN decoded).getD 1 ""] := by
            apply list_two_of_head
            · by_contra hc; exact hcreds (Or.inl hc)
            · by_contra hc; exact hcreds (Or.inr (Or.inl hc))
          have hpass : (strings.SplitN decoded).getD 1 "" = app.basicPass := by
            by_contra hc; exact hcreds (Or.inr (Or.inr hc))
          rw [hpass] at hc2
          rw [hd, strings.SplitN_two decoded _ _ hc2]

/-- C20 (amended): for a configured user name without a colon and any configured password, the
request whose header is "Basic " followed by the base64 encoding of `user:pass` reaches the next
handler; and every request whose header is missing, does not split into "Basic" and one more
part, whose second part does not decode, or decodes to a string other than `user:pass`, is
answered with status 401 and does not reach the next handler. The two facts used about
base64 are that the encoding of `user:pass` decodes to it and contains no space. -/
theorem basic_auth_accepts_exactly_credentials (app : application) (enc : Base64)
    (hcolon : Char.ofNat 58 ∉ app.basicUser.toList)
    (hdec : enc.DecodeString (enc.EncodeToString (app.basicUser ++ ":" ++ app.basicPass)) =
      .ok (app.basicUser ++ ":" ++ app.basicPass))
    (hsp : Char.ofNat 32 ∉ (enc.EncodeToString (app.basicUser ++ ":" ++ app.basicPass)).toList) :
    (∀ method path,
        app.BasicAuthMiddleware enc ⟨method, path,
          some ("Basic " ++ enc.EncodeToString (app.basicUser ++ ":" ++ app.basicPass))⟩ =
            [Effect.nextRequest]) ∧
      (∀ r : Request,
        (¬ ∃ b, strings.Split r.headerGetAuthorization = ["Basic", b] ∧
            enc.DecodeString b = .ok (app.basicUser ++ ":" ++ app.basicPass)) →
          responseStatus (app.BasicAuthMiddleware enc r) = some 401 ∧
            nextCalls (app.BasicAuthMiddleware enc r) = 0) := by
  constructor
  · intro method path
    have hsplit : strings.Split
        ("Basic " ++ enc.EncodeToString (app.basicUser ++ ":" ++ app.basicPass)) =
        ["Basic", enc.EncodeToString (app.basicUser ++ ":" ++ app.basicPass)] := by
      rw [show ("Basic " : String) = "Basic" ++ " " from by decide]
      exact strings.Split_two _ _ (by decide) hsp
    have hne : ("Basic " ++ enc.EncodeToString (app.basicUser ++ ":" ++ app.basicPass) : String)
        ≠ "" := by
      intro h
      have := congrArg String.length h
      simp at this
      exact absurd this.1 (by decide)
    unfold application.BasicAuthMiddleware
    simp [Request.headerGetAuthorization, hne, hsplit, hdec,
      strings.SplitN_credentials _ _ hcolon]
  · intro r hno
    rcases BasicAuthMiddleware_cases app enc r with ⟨err, herr⟩ | ⟨-, hyes⟩
    · rw [herr]
      exact ⟨rfl, rfl⟩
    · exact absurd hyes hno

/-- C20, witness: the credentials admin/admin of `main` with the base64 fragment. -/
theorem basic_auth_accepts_exactly_credentials_witness :
    (∀ method path,
        testApplication.BasicAuthMiddleware testBase64 ⟨method, path,
          some ("Basic " ++ testBase64.EncodeToString
            (testApplication.basicUser ++ ":" ++ testApplication.basicPass))⟩ =
            [Effect.nextRequest]) ∧
      (∀ r : Request,
        (¬ ∃ b, strings.Split r.headerGetAuthorization = ["Basic", b] ∧
            testBase64.DecodeString b =
              .ok (testApplication.basicUser ++ ":" ++ testApplication.basicPass)) →
          responseStatus (testApplication.BasicAuthMiddleware testBase64 r) = some 401 ∧
            nextCalls (testApplication.BasicAuthMiddleware testBase64 r) = 0) :=
  basic_auth_accepts_exactly_credentials testApplication testBase64 (by decide) rfl
    (by decide)

/-- C20, counterexample: the configured user name "a:b" and password "c". The request with the
header "Basic " followed by the base64 encoding of "a:b:c" is answered with status 401 and does
not reach the next handler, because the decoded string is cut at its first colon. -/
theorem basic_auth_rejects_user_with_colon :
    testBase64.DecodeString (testBase64.EncodeToString ("a:b" ++ ":" ++ "c")) =
        .ok ("a:b" ++ ":" ++ "c") ∧
      responseStatus (({ testApplication with basicUser := "a:b", basicPass := "c" } :
        application).BasicAuthMiddleware testBase64
          ⟨"GET", "/v1/health",
            some ("Basic " ++ testBase64.EncodeToString ("a:b" ++ ":" ++ "c"))⟩) = some 401 ∧
      nextCalls (({ testApplication with basicUser := "a:b", basicPass := "c" } :
        application).BasicAuthMiddleware testBase64
          ⟨"GET", "/v1/health",
            some ("Basic " ++ testBase64.EncodeToString ("a:b" ++ ":" ++ "c"))⟩) = 0 := by
  refine ⟨rfl, rfl, rfl⟩

end api

/-! ## Frame properties of `Allow` -/

namespace ratelimiter

theorem Allow_window (rl : FixedWindowRateLimiter) (ip : String) :
    (Allow rl ip).rl.window = rl.window := by
  unfold Allow allowWrite
  split <;> rfl

/-- An admitted call stores the old count plus one (the old count of an absent key is 0), as
long as the limit and the stored count are values of Go's `int`. -/
theorem Allow_admitted_count (rl : FixedWindowRateLimiter) (key : String)
    (hlim : rl.limit ≤ maxInt) (hc : ∀ c, rl.clients key = some c → -(2 ^ 63) ≤ c)
    (hadm : (Allow rl key).admitted = true) :
    (Allow rl key).rl.clients key = some ((readCount rl key).1 + 1) := by
  cases hk : rl.clients key with
  | none => simp [Allow_absent rl key hk, readCount, hk]
  | some c =>
    have hlow := hc c hk
    by_cases hlt : c < rl.limit
    · have hw : wrapInt (c + 1) = c + 1 := wrapInt_eq _ (by omega) (by omega)
      simp [Allow, allowWrite, readCount, hk, hlt, hw]
    · rw [Allow_full rl key c hk (by omega)] at hadm
      simp at hadm

theorem Allow_denied_same (rl : FixedWindowRateLimiter) (key : String)
    (hden : (Allow rl key).admitted = false) :
    (Allow rl key).rl = rl ∧ (Allow rl key).retryAfter = rl.window ∧
      (Allow rl key).spawned = false := by
  obtain ⟨c, hc, hle⟩ := Allow_denied rl key hden
  rw [Allow_full rl key c hc hle]
  exact ⟨rfl, rfl, rfl⟩

end ratelimiter

/-! ## Properties of the rate-limiter middleware and of the mounted pipeline -/

namespace api

open ratelimiter in
/-- C21: with the rate limiter enabled: when the limiter denies the request's key, the handler
responds with status 429, sets `Retry-After` to the textual form of the configured window and
does not invoke the next handler; when the limiter admits the key, the handler only invokes the
next handler, and sets no `Retry-After` header. -/
theorem rate_limiter_middleware_outcomes (app : application) (durationString : Int → String)
    (s : LimiterState) (remoteAddr : String) (r : Request)
    (hon : app.rateLimiterEnabled = true) :
    ((Allow s.rl remoteAddr).admitted = false →
        responseStatus (app.RateLimiterMiddleware durationString s remoteAddr r).2 = some 429 ∧
          Effect.setHeader "Retry-After" (durationString s.rl.window) ∈
            (app.RateLimiterMiddleware durationString s remoteAddr r).2 ∧
          nextCalls (app.RateLimiterMiddleware durationString s remoteAddr r).2 = 0) ∧
      ((Allow s.rl remoteAddr).admitted = true →
        (app.RateLimiterMiddleware durationString s remoteAddr r).2 = [Effect.nextRequest] ∧
          ∀ v, Effect.setHeader "Retry-After" v ∉
            (app.RateLimiterMiddleware durationString s remoteAddr r).2) := by
  constructor
  · intro hden
    obtain ⟨-, hretry, -⟩ := Allow_denied_same s.rl remoteAddr hden
    simp [application.RateLimiterMiddleware, hon, hden, hretry,
      application.rateLimitExceededResponse, responseStatus, nextCalls, StatusTooManyRequests]
  · intro hadm
    simp [application.RateLimiterMiddleware, hon, hadm]

open ratelimiter in
/-- C21, witness: limit 1 and a window of five seconds; the second request of one address. -/
theorem rate_limiter_middleware_outcomes_witness :
    responseStatus (testApplication.RateLimiterMiddleware testDurationString
        (run (LimiterState.init 1 5000000000) [Event.allow "1.2.3.4"]).1 "1.2.3.4"
        ⟨"GET", "/v1/users/1", none⟩).2 = some 429 ∧
      Effect.setHeader "Retry-After" (testDurationString
          (run (LimiterState.init 1 5000000000) [Event.allow "1.2.3.4"]).1.rl.window) ∈
        (testApplication.RateLimiterMiddleware testDurationString
          (run (LimiterState.init 1 5000000000) [Event.allow "1.2.3.4"]).1 "1.2.3.4"
          ⟨"GET", "/v1/users/1", none⟩).2 ∧
      nextCalls (testApplication.RateLimiterMiddleware testDurationString
        (run (LimiterState.init 1 5000000000) [Event.allow "1.2.3.4"]).1 "1.2.3.4"
        ⟨"GET", "/v1/users/1", none⟩).2 = 0 :=
  (rate_limiter_middleware_outcomes testApplication testDurationString
    (run (LimiterState.init 1 5000000000) [Event.allow "1.2.3.4"]).1 "1.2.3.4"
    ⟨"GET", "/v1/users/1", none⟩ rfl).1 (by decide)

/-- C22: what `internalServerError` sends to the caller does not depend on the error: for any
two errors the calls on the response writer are the same single call, status 500 with the fixed
message; the error only goes to the log. -/
theorem internal_error_response_independent (app : application) (r : Request)
    (e1 e2 : String) :
    callerVisible (app.internalServerError r e1) = callerVisible (app.internalServerError r e2) ∧
      callerVisible (app.internalServerError r e1) =
        [Effect.writeJSONError 500 "the server encountered a problem"] ∧
      responseStatus (app.internalServerError r e1) = some 500 ∧
      responseStatus (app.internalServerError r e2) = some 500 := by
  refine ⟨rfl, rfl, rfl, rfl⟩

theorem chain_next (inner : List Effect) : chain [Effect.nextRequest] inner = inner := by
  simp [chain]

open ratelimiter in
/-- C23: on a protected route with the limiter enabled: a request that the limiter denies makes
no call on the authenticator, the cache or the store; the limiter state after any request is
the state right after `Allow`; and for an admitted request the rest of the handler is
`AuthTokenMiddleware`, whatever it answers, while the stored count of the caller's key is one
more than before (the limit and the stored count being values of Go's `int`). -/
theorem limiter_first_and_no_rollback (app : application) (durationString : Int → String)
    (Sprintf : Option auth.Value → String) (s : LimiterState) (remoteAddr : String) (r : Request)
    (hon : app.rateLimiterEnabled = true) :
    ((Allow s.rl remoteAddr).admitted = false →
        ∀ e ∈ (app.protectedRoute durationString Sprintf s remoteAddr r).2,
          (∀ t, e ≠ Effect.validateToken t) ∧ (∀ id, e ≠ Effect.cacheGet id) ∧
            (∀ id, e ≠ Effect.storeGetByID id) ∧ (∀ u, e ≠ Effect.cacheSet u)) ∧
      (app.protectedRoute durationString Sprintf s remoteAddr r).1 =
        (step s (Event.allow remoteAddr)).1 ∧
      ((Allow s.rl remoteAddr).admitted = true →
        (app.protectedRoute durationString Sprintf s remoteAddr r).2 = app.AuthTokenMiddleware Sprintf r ∧
          (s.rl.limit ≤ maxInt → (∀ c, s.rl.clients remoteAddr = some c → -(2 ^ 63) ≤ c) →
            storedCount (app.protectedRoute durationString Sprintf s remoteAddr r).1 remoteAddr =
              storedCount s remoteAddr + 1)) := by
  have hstate : (app.protectedRoute durationString Sprintf s remoteAddr r).1 =
      (step s (Event.allow remoteAddr)).1 := by
    unfold application.protectedRoute application.RateLimiterMiddleware
    simp only [hon, if_true]
    split <;> rfl
  refine ⟨?_, hstate, ?_⟩
  · intro hden e he
    have htrace : (app.protectedRoute durationString Sprintf s remoteAddr r).2 =
        app.rateLimitExceededResponse r
          (durationString (Allow s.rl remoteAddr).retryAfter) := by
      simp [application.protectedRoute, application.RateLimiterMiddleware, hon, hden,
        application.rateLimitExceededResponse, chain]
    rw [htrace] at he
    simp only [application.rateLimitExceededResponse, List.mem_cons, List.mem_singleton,
      List.mem_nil_iff, or_false] at he
    rcases he with rfl | rfl | rfl <;> simp
  · intro hadm
    refine ⟨?_, ?_⟩
    · simp [application.protectedRoute, application.RateLimiterMiddleware, hon, hadm,
        chain_next]
    · intro hlim hc
      rw [hstate]
      have := Allow_admitted_count s.rl remoteAddr hlim hc hadm
      simp only [storedCount, readCount, step, this]

open ratelimiter in
/-- C23, witness: a fresh limiter, an admitted request whose token the authenticator rejects. -/
theorem limiter_first_and_no_rollback_witness :
    (testApplication.protectedRoute testDurationString testSprintf (LimiterState.init 1 5000000000)
        "1.2.3.4" ⟨"GET", "/v1/users/1", some "Bearer bad"⟩).1 =
      (step (LimiterState.init 1 5000000000) (Event.allow "1.2.3.4")).1 :=
  (limiter_first_and_no_rollback testApplication testDurationString testSprintf
    (LimiterState.init 1 5000000000) "1.2.3.4" ⟨"GET", "/v1/users/1", some "Bearer bad"⟩ rfl).2.1

end api

/-! ## Properties of the post and token handlers -/

namespace api

/-- C24, the failing input: a request to `/v1/posts/2`, whose id parses, for a post that the
store reports as `ErrNotFound`. The handler does not invoke the next handler, but the status it
writes is 400, the status `notFoundError` passes to `writeJSONError`, and not 404. -/
theorem post_not_found_answered_with_400 :
    strconv.ParseInt "2" = .ok 2 ∧ testApplication.PostsGetByID 2 = .error .ErrNotFound ∧
      testApplication.postsContextMiddleware ⟨"GET", "/v1/posts/2", none⟩ "2" =
        Effect.postsGetByID 2 ::
          testApplication.notFoundError ⟨"GET", "/v1/posts/2", none⟩ "resource not found" ∧
      responseStatus (testApplication.postsContextMiddleware ⟨"GET", "/v1/posts/2", none⟩ "2") =
        some 400 ∧
      nextCalls (testApplication.postsContextMiddleware ⟨"GET", "/v1/posts/2", none⟩ "2") = 0 := by
  refine ⟨rfl, rfl, rfl, rfl, rfl⟩

/-- C27, the failing input: a request to `updatePostHandler` on the post 1 whose body cannot be
read (`readJSON` returns the error "EOF" and leaves the payload empty). After the status 400
response the handler goes on: it calls `Posts.Update` and writes a second response with status
200. -/
theorem update_continues_after_bad_body :
    testApplication.updatePostHandler ⟨"PATCH", "/v1/posts/1", none⟩
        { ID := 1, Title := "t", Content := "c", Tags := [], UserID := 1 }
        ({ Title := none, Content := none }, some "EOF") =
      testApplication.badRequestError ⟨"PATCH", "/v1/posts/1", none⟩ "EOF" ++
        [Effect.postsUpdate { ID := 1, Title := "t", Content := "c", Tags := [], UserID := 1 },
          Effect.jsonResponse 200
            (.post { ID := 1, Title := "t", Content := "c", Tags := [], UserID := 1 })] ∧
      callerVisible (testApplication.updatePostHandler ⟨"PATCH", "/v1/posts/1", none⟩
        { ID := 1, Title := "t", Content := "c", Tags := [], UserID := 1 }
        ({ Title := none, Content := none }, some "EOF")) =
        [Effect.writeJSONError 400 "EOF",
          Effect.jsonResponse 200
            (.post { ID := 1, Title := "t", Content := "c", Tags := [], UserID := 1 })] := by
  refine ⟨rfl, rfl⟩

/-- The calls of `createTokenHandler` for a payload whose user is found. -/
theorem createTokenHandler_found (app : application) (now : Int) (r : Request)
    (payload : CreateUserTokenPayload) (user : User)
    (hfound : app.GetByEmail payload.Email = .ok user) :
    ∃ rest, app.createTokenHandler now r (.ok payload) =
        Effect.storeGetByEmail payload.Email ::
          Effect.generateToken (app.tokenClaims now user) :: rest ∧
      ∀ c, Effect.generateToken c ∉ rest := by
  unfold application.createTokenHandler
  simp only [hfound]
  cases hg : app.GenerateToken (app.tokenClaims now user) with
  | error err => exact ⟨_, rfl, by simp [application.internalServerError]⟩
  | ok token =>
    cases hj : app.jsonResponse StatusCreated (.token token) with
    | none => exact ⟨_, rfl, by simp [hj]⟩
    | some err => exact ⟨_, rfl, by simp [hj, application.internalServerError]⟩

/-- C25: for a user found by `createTokenHandler`, the one claim set passed to `GenerateToken`
has `sub` equal to the user's id and `iss` and `aud` equal to the configured issuer; and for the
authenticator that `main` builds, with that issuer (not empty) as audience and as issuer, the
claims pass the audience and the issuer check of `ValidateToken`, and the token signed over them
is accepted at every instant from its issue until its expiry. -/
theorem issued_claims_pass_validation (app : application)
    (mac : String → String → auth.MapClaims → List Nat) (secret : String) (now later : Int)
    (r : Request) (payload : CreateUserTokenPayload) (user : User)
    (hfound : app.GetByEmail payload.Email = .ok user) (hiss : app.tokenIss ≠ "")
    (h0 : 0 < now) (h1 : now ≤ later) (h2 : later < now + app.tokenExp) :
    (∀ c, Effect.generateToken c ∈ app.createTokenHandler now r (.ok payload) ↔
        c = app.tokenClaims now user) ∧
      (app.tokenClaims now user).lookup "sub" = some (.num user.ID) ∧
      (app.tokenClaims now user).lookup "iss" = some (.str app.tokenIss) ∧
      (app.tokenClaims now user).lookup "aud" = some (.str app.tokenIss) ∧
      auth.verifyAudience (app.tokenClaims now user)
        (auth.NewJWTAuthenticator secret app.tokenIss app.tokenIss).aud = [] ∧
      auth.verifyIssuer (app.tokenClaims now user)
        (auth.NewJWTAuthenticator secret app.tokenIss app.tokenIss).aud = [] ∧
      (auth.NewJWTAuthenticator secret app.tokenIss app.tokenIss).ValidateToken mac later
          (.compact "HS256" (app.tokenClaims now user)
            (mac secret "HS256" (app.tokenClaims now user))) =
        .ok { alg := "HS256", claims := app.tokenClaims now user,
              signature := mac secret "HS256" (app.tokenClaims now user), valid := true } := by
  refine ⟨?_, rfl, rfl, rfl, ?_, ?_, ?_⟩
  · intro c
    obtain ⟨rest, htrace, hrest⟩ := createTokenHandler_found app now r payload user hfound
    rw [htrace]
    constructor
    · intro hc
      simp only [List.mem_cons] at hc
      rcases hc with hc | hc | hc
      · cases hc
      · cases hc; rfl
      · exact absurd hc (hrest c)
    · rintro rfl
      simp
  · simp [auth.verifyAudience, application.tokenClaims, auth.NewJWTAuthenticator, List.lookup,
      hiss]
  · simp [auth.verifyIssuer, application.tokenClaims, auth.NewJWTAuthenticator, List.lookup,
      hiss]
  · have hexp0 : ¬ now + app.tokenExp = 0 := by omega
    have hnow0 : ¬ now = 0 := by omega
    have hnbf : ¬ later < now := by omega
    simp [auth.JWTAuthenticator.ValidateToken, auth.NewJWTAuthenticator, auth.NewParser,
      auth.Parser.Parse, auth.JWTAuthenticator.keyFunc, auth.registeredMethods,
      auth.hmacMethods, auth.Parser.validate, auth.verifyExpiresAt, auth.verifyNotBefore,
      auth.verifyAudience, auth.verifyIssuer, application.tokenClaims, List.lookup, hiss, hexp0,
      hnow0, hnbf, h2]

/-- C25, witness: the test application (issuer "gophersocial", lifetime three days), the user
found for "u@example.com", issue at instant 1000 and verification one hour later. -/
theorem issued_claims_pass_validation_witness :
    (auth.NewJWTAuthenticator "example" testApplication.tokenIss
        testApplication.tokenIss).ValidateToken auth.toyMac 4600
          (.compact "HS256"
            (testApplication.tokenClaims 1000
              ⟨1, "u", "u@example.com", [36, 50, 97], "", true, 1, ⟨1, "user", 1, ""⟩⟩)
            (auth.toyMac "example" "HS256"
              (testApplication.tokenClaims 1000
                ⟨1, "u", "u@example.com", [36, 50, 97], "", true, 1, ⟨1, "user", 1, ""⟩⟩))) =
      .ok { alg := "HS256",
            claims := testApplication.tokenClaims 1000
              ⟨1, "u", "u@example.com", [36, 50, 97], "", true, 1, ⟨1, "user", 1, ""⟩⟩,
            signature := auth.toyMac "example" "HS256"
              (testApplication.tokenClaims 1000
                ⟨1, "u", "u@example.com", [36, 50, 97], "", true, 1, ⟨1, "user", 1, ""⟩⟩),
            valid := true } :=
  (issued_claims_pass_validation testApplication auth.toyMac "example" 1000 4600
    ⟨"POST", "/v1/authentication/token", none⟩ ⟨"u@example.com", "secret"⟩
    ⟨1, "u", "u@example.com", [36, 50, 97], "", true, 1, ⟨1, "user", 1, ""⟩⟩
    rfl (by decide) (by decide) (by decide) (by decide)).2.2.2.2.2.2

/-- C30: the calls `createTokenHandler` makes, and so its response, are the same for any two
readable payloads with the same email, whatever their passwords: the password is not used. -/
theorem token_outcome_ignores_password (app : application) (now : Int) (r : Request)
    (p1 p2 : CreateUserTokenPayload) (hemail : p1.Email = p2.Email) :
    app.createTokenHandler now r (.ok p1) = app.createTokenHandler now r (.ok p2) := by
  unfold application.createTokenHandler
  simp only [hemail]

/-- C30, witness: the email of the stored user with two different passwords. -/
theorem token_outcome_ignores_password_witness :
    testApplication.createTokenHandler 1000 ⟨"POST", "/v1/authentication/token", none⟩
        (.ok ⟨"u@example.com", "secret"⟩) =
      testApplication.createTokenHandler 1000 ⟨"POST", "/v1/authentication/token", none⟩
        (.ok ⟨"u@example.com", "wrong"⟩) :=
  token_outcome_ignores_password testApplication 1000 ⟨"POST", "/v1/authentication/token", none⟩
    ⟨"u@example.com", "secret"⟩ ⟨"u@example.com", "wrong"⟩ rfl

end api

/-! ## Properties of the feed query -/

namespace store

/-- C29, the failing input: a query with `since=2024-01-01 00:00:00` and
`until=2024-12-31 23:59:59`, both valid. `Parse` returns no error, but `Since` holds the
normalised `until` and `Until` is unchanged (empty); and with only `until` given nothing is
set. -/
theorem parse_puts_until_into_since :
    parseTime testDateTime "2024-01-01 00:00:00" = "2024-01-01 00:00:00" ∧
      parseTime testDateTime "2024-12-31 23:59:59" = "2024-12-31 23:59:59" ∧
      PaginatedFeedQuery.Parse testDateTime defaultFeedQuery
          [("since", "2024-01-01 00:00:00"), ("until", "2024-12-31 23:59:59")] =
        ({ defaultFeedQuery with Since := "2024-12-31 23:59:59", Until := "" }, none) ∧
      PaginatedFeedQuery.Parse testDateTime defaultFeedQuery
          [("until", "2024-12-31 23:59:59")] = (defaultFeedQuery, none) := by
  refine ⟨rfl, rfl, rfl, rfl⟩

end store

/-! ## Interleavings and independence of keys -/

namespace ratelimiter

/-- C26, the failing interleaving: limit 2 and two `Allow("a")` calls. The first call runs to
its end; the second reads `exists = true`; the expiry of "a" runs; the second call then writes.
The key "a" is back in the table with count 1 and no expiry goroutine is sleeping, so the entry
is never removed: one more admission and the key is denied for good. (In the interleaving read,
read, write, write the key gets two expiry goroutines instead.) -/
theorem entry_without_expiry_task :
    (crun ⟨LimiterState.init 2 5, [Call.start "a", Call.start "a"]⟩
        [Sched.call 0, Sched.call 0, Sched.call 1, Sched.expire "a",
          Sched.call 1]).state.rl.clients "a" = some 1 ∧
      (crun ⟨LimiterState.init 2 5, [Call.start "a", Call.start "a"]⟩
        [Sched.call 0, Sched.call 0, Sched.call 1, Sched.expire "a",
          Sched.call 1]).state.sleeping = [] ∧
      (run (crun ⟨LimiterState.init 2 5, [Call.start "a", Call.start "a"]⟩
        [Sched.call 0, Sched.call 0, Sched.call 1, Sched.expire "a", Sched.call 1]).state
        [Event.allow "a", Event.expire "a", Event.allow "a", Event.expire "a",
          Event.allow "a"]).2 =
        [Obs.allow "a" true 0, Obs.idle, Obs.allow "a" false 5, Obs.idle,
          Obs.allow "a" false 5] ∧
      (crun ⟨LimiterState.init 2 5, [Call.start "a", Call.start "a"]⟩
        [Sched.call 0, Sched.call 1, Sched.call 0, Sched.call 1]).state.sleeping =
        ["a", "a"] := by
  refine ⟨by decide, by decide, ?_, by decide⟩
  simp [crun, cstep, advance, run, step, Allow, allowWrite, readCount, resetCount,
    LimiterState.init, NewFixedWindowRateLimiter, wrapInt]

theorem Allow_key_entry (rl : FixedWindowRateLimiter) (key : String) :
    (Allow rl key).rl.clients key =
      if (!(readCount rl key).2 || decide ((readCount rl key).1 < rl.limit)) = true then
        some (wrapInt ((readCount rl key).1 + 1))
      else rl.clients key := by
  unfold Allow allowWrite
  split <;> simp_all

theorem Allow_spawned_eq (rl : FixedWindowRateLimiter) (key : String) :
    (Allow rl key).spawned = !(readCount rl key).2 := by
  unfold Allow allowWrite
  split
  · rfl
  · simp_all

theorem readCount_congr (rl rl2 : FixedWindowRateLimiter) (key : String)
    (h : rl.clients key = rl2.clients key) : readCount rl key = readCount rl2 key := by
  unfold readCount
  rw [h]

theorem step_sameView (key : String) (s t : LimiterState) (e : Event)
    (he : concerns key e = true) (h : SameView key s t) :
    SameView key (step s e).1 (step t e).1 ∧ (step s e).2 = (step t e).2 := by
  obtain ⟨hc, hl, hw, hs⟩ := h
  have hr := readCount_congr s.rl t.rl key hc
  have hke : e = Event.allow key ∨ e = Event.expire key := by
    simpa [concerns] using he
  rcases hke with rfl | rfl
  · have hadm : (Allow s.rl key).admitted = (Allow t.rl key).admitted :=
      Allow_admitted_congr t.rl s.rl key hc hl
    have hretry : (Allow s.rl key).retryAfter = (Allow t.rl key).retryAfter := by
      unfold Allow allowWrite
      rw [hr, hl, hw]
      split <;> rfl
    refine ⟨⟨?_, ?_, ?_, ?_⟩, ?_⟩
    · simp only [step, Allow_key_entry, hr, hl, hc]
    · simp only [step, Allow_limit, hl]
    · simp only [step, Allow_window, hw]
    · simp only [step, Allow_spawned_eq, hr]
      split <;> simp [hs]
    · simp only [step, hadm, hretry]
  · have hmem : key ∈ s.sleeping ↔ key ∈ t.sleeping := by
      rw [← List.count_pos_iff, ← List.count_pos_iff, hs]
    by_cases hin : key ∈ s.sleeping
    · have hin2 : key ∈ t.sleeping := hmem.1 hin
      refine ⟨⟨?_, ?_, ?_, ?_⟩, ?_⟩
      · simp [step, hin, hin2, resetCount]
      · simp [step, hin, hin2, resetCount, hl]
      · simp [step, hin, hin2, resetCount, hw]
      · simp [step, hin, hin2, hs]
      · simp [step, hin, hin2]
    · have hin2 : key ∉ t.sleeping := fun h2 => hin (hmem.2 h2)
      refine ⟨⟨?_, ?_, ?_, ?_⟩, ?_⟩
      · simp [step, hin, hin2, hc]
      · simp [step, hin, hin2, hl]
      · simp [step, hin, hin2, hw]
      · simp [step, hin, hin2, hs]
      · simp [step, hin, hin2]

theorem step_other_sameView (key : String) (s t : LimiterState) (e : Event)
    (he : concerns key e = false) (h : SameView key s t) : SameView key (step s e).1 t := by
  obtain ⟨hc, hl, hw, hs⟩ := h
  cases e with
  | allow ip =>
    have hne : key ≠ ip := by
      intro h2
      simp [concerns, h2] at he
    refine ⟨?_, ?_, ?_, ?_⟩
    · simp only [step, Allow_clients_ne s.rl ip key hne, hc]
    · simp only [step, Allow_limit, hl]
    · simp only [step, Allow_window, hw]
    · simp only [step]
      split
      · rw [List.count_cons_of_ne hne, hs]
      · exact hs
  | expire ip =>
    have hne : key ≠ ip := by
      intro h2
      simp [concerns, h2] at he
    by_cases hin : ip ∈ s.sleeping
    · refine ⟨?_, ?_, ?_, ?_⟩
      · simp [step, hin, resetCount, Function.update_noteq hne, hc]
      · simp [step, hin, resetCount, hl]
      · simp [step, hin, resetCount, hw]
      · simp [step, hin, List.count_erase_of_ne hne, hs]
    · simpa [step, hin] using And.intro hc (And.intro hl (And.intro hw hs))

/-- The entry of a key after a sequence of steps is the entry after the steps that concern the
key alone. -/
theorem run_sameView (key : String) (es : List Event) : ∀ s t : LimiterState,
    SameView key s t → SameView key (run s es).1 (run t (es.filter (concerns key))).1 := by
  induction es with
  | nil => intro s t h; simpa [run] using h
  | cons e es ih =>
    intro s t h
    by_cases he : concerns key e = true
    · have := ih _ _ (step_sameView key s t e he h).1
      simpa [run, List.filter_cons, he] using this
    · have he2 : concerns key e = false := by simpa using he
      have := ih _ _ (step_other_sameView key s t e he2 h)
      simpa [run, List.filter_cons, he2] using this

/-- C28: an `Allow(key)` call leaves the entry of every other key, the limit and the window
unchanged; an admitted call stores the old count of `key` plus one, and the count 1 when the key
was absent; a denied call changes nothing. Hence after any sequence of steps the entry of a key,
and with it the decision of `Allow` for the key, is the same as after the steps of that key
alone (its own `Allow` calls and its expiry). The limit and the stored count are values of Go's
`int`. -/
theorem allow_touches_only_its_key (rl : FixedWindowRateLimiter) (key : String)
    (hlim : rl.limit ≤ maxInt) (hc : ∀ c, rl.clients key = some c → -(2 ^ 63) ≤ c) :
    (∀ k, k ≠ key → (Allow rl key).rl.clients k = rl.clients k) ∧
      (Allow rl key).rl.limit = rl.limit ∧ (Allow rl key).rl.window = rl.window ∧
      ((Allow rl key).admitted = true →
        (Allow rl key).rl.clients key = some ((readCount rl key).1 + 1)) ∧
      (rl.clients key = none →
        (Allow rl key).admitted = true ∧ (Allow rl key).rl.clients key = some 1) ∧
      ((Allow rl key).admitted = false → (Allow rl key).rl = rl) ∧
      (∀ (s : LimiterState) (es : List Event),
        (run s es).1.rl.clients key = (run s (es.filter (concerns key))).1.rl.clients key ∧
          (Allow (run s es).1.rl key).admitted =
            (Allow (run s (es.filter (concerns key))).1.rl key).admitted) := by
  refine ⟨fun k hk => Allow_clients_ne rl key k hk, Allow_limit rl key, Allow_window rl key,
    Allow_admitted_count rl key hlim hc, ?_, fun h => (Allow_denied_same rl key h).1, ?_⟩
  · intro habs
    rw [Allow_absent rl key habs]
    simp
  · intro s es
    have h := run_sameView key es s s ⟨rfl, rfl, rfl, rfl⟩
    exact ⟨h.1, Allow_admitted_congr _ _ key h.1 h.2.1⟩

/-- C28, witness: a fresh limiter with limit 2 and the key "a". -/
theorem allow_touches_only_its_key_witness :
    (Allow (NewFixedWindowRateLimiter 2 5) "a").admitted = true ∧
      (Allow (NewFixedWindowRateLimiter 2 5) "a").rl.clients "a" = some 1 :=
  (allow_touches_only_its_key (NewFixedWindowRateLimiter 2 5) "a" (by decide)
    (by intro c h; cases h)).2.2.2.2.1 rfl

end ratelimiter

/-! ## Re-admission after expiry -/

namespace ratelimiter

/-- C4: in any state in which `Allow(key)` is denied and the expiry of the key is scheduled (a
`resetCount(key)` goroutine is sleeping): the key is in the table; once that expiry step has
run, the key is absent from the table; and after any further steps that do not concern the key,
the next `Allow(key)` returns `(true, 0)` and stores the count 1. -/
theorem denied_key_admitted_after_expiry (s : LimiterState) (key : String)
    (hden : (Allow s.rl key).admitted = false) (hsched : key ∈ s.sleeping) :
    s.rl.clients key ≠ none ∧
      (step s (Event.expire key)).2 = Obs.expire key ∧
      (step s (Event.expire key)).1.rl.clients key = none ∧
      ∀ es : List Event, (∀ e ∈ es, concerns key e = false) →
        (run (step s (Event.expire key)).1 es).1.rl.clients key = none ∧
          (step (run (step s (Event.expire key)).1 es).1 (Event.allow key)).2 =
            Obs.allow key true 0 ∧
          (step (run (step s (Event.expire key)).1 es).1 (Event.allow key)).1.rl.clients key =
            some 1 := by
  obtain ⟨s1, hs1, habs⟩ : ∃ s1 : LimiterState,
      step s (Event.expire key) = (s1, Obs.expire key) ∧ s1.rl.clients key = none :=
    ⟨(step s (Event.expire key)).1, by simp [step, hsched], by simp [step, hsched, resetCount]⟩
  have hpresent : s.rl.clients key ≠ none := by
    obtain ⟨c, hc, -⟩ := Allow_denied s.rl key hden
    simp [hc]
  rw [hs1]
  refine ⟨hpresent, rfl, habs, ?_⟩
  intro es hes
  have hfilter : es.filter (concerns key) = [] := by
    rw [List.filter_eq_nil_iff]
    intro e he
    simp [hes e he]
  have hview := run_sameView key es s1 s1 ⟨rfl, rfl, rfl, rfl⟩
  rw [hfilter] at hview
  have habs2 : (run s1 es).1.rl.clients key = none := by
    rw [hview.1]
    simpa [run] using habs
  have hA := Allow_absent (run s1 es).1.rl key habs2
  refine ⟨habs2, ?_, ?_⟩
  · simp only [step, hA]
  · simp only [step, hA, Function.update_same]

/-- C4, witness: limit 1; after one admitted call the key "a" is denied and its expiry is
sleeping; two calls for the key "b" come between the expiry and the next call for "a". -/
theorem denied_key_admitted_after_expiry_witness :
    (step (run (LimiterState.init 1 5) [Event.allow "a"]).1 (Event.expire "a")).2 =
        Obs.expire "a" ∧
      (step (run (LimiterState.init 1 5) [Event.allow "a"]).1 (Event.expire "a")).1.rl.clients
        "a" = none ∧
      (step (run (step (run (LimiterState.init 1 5) [Event.allow "a"]).1 (Event.expire "a")).1
        [Event.allow "b", Event.allow "b"]).1 (Event.allow "a")).2 = Obs.allow "a" true 0 :=
  ⟨(denied_key_admitted_after_expiry (run (LimiterState.init 1 5) [Event.allow "a"]).1 "a"
      (by decide) (by decide)).2.1,
    (denied_key_admitted_after_expiry (run (LimiterState.init 1 5) [Event.allow "a"]).1 "a"
      (by decide) (by decide)).2.2.1,
    ((denied_key_admitted_after_expiry (run (LimiterState.init 1 5) [Event.allow "a"]).1 "a"
      (by decide) (by decide)).2.2.2 [Event.allow "b", Event.allow "b"] (by decide)).2.1⟩

end ratelimiter
